import Mathlib

/-!
Verification of the Fluent reference linter (`reference/fluent/fluent_reference.py`
of mozl10n-linter) against its natural-language specification.

The Python linter is shallowly embedded: strings become `List Char` where the
code indexes into them, the mutable `Linter` visitor state becomes an explicit
`St` record threaded through the traversal, and Python exceptions
(`AssertionError` from the CRLF asserts, `IndexError` from out-of-range list
access) become `Option`/`none`.  The Fluent AST produced by the external
`fluent.syntax` parser is embedded as inductive types covering every node kind
the linter's visitor can reach; fields the visitor never reads (reference call
arguments, attached comments, `Junk`) are omitted.
-/

/-- A span of a Fluent AST node: `[start, end)` character offsets into the
source.  The Python field `end` is called `stop` here because `end` is a Lean
keyword. -/
structure Span where
  start : Nat
  stop : Nat
deriving DecidableEq, Repr

/-- One entry of `Linter.results`.  The Python code appends a formatted string
containing the relative file path, the line, the column, the rule id and the
rule message; the record keeps those five pieces of information unformatted
(`os.path.relpath` is an external OS function and the path is kept as given). -/
structure Diag where
  path : String
  line : Nat
  col : Nat
  rule : String
  msg : String
deriving DecidableEq, Repr

/-- The mutable state of one `Linter` instance: the accumulated `results`, the
`ids` list used by the duplicate-identifier check, and the two traversal flags
kept in `self.state`. -/
structure St where
  results : List Diag
  ids : List String
  node_can_be_resource_comment : Bool
  can_have_group_comment : Bool
deriving DecidableEq, Repr

/-- One rule's entry in the YAML configuration dictionary, with every key the
linter reads (`enabled`, `disabled`, `min_length`, `exclusions.files`,
`exclusions.messages`).  The Python code reads each key only on rules that
carry it in the shipped configuration; modelling all keys on every entry is
harmless because the linter never reads an absent key on the inputs at issue. -/
structure RuleEntry where
  enabled : Bool
  disabled : Bool
  min_length : Nat
  exclusions_files : List String
  exclusions_messages : List String
deriving DecidableEq, Repr

/-- The immutable per-file context of a `Linter` instance: `self.path`,
`self.root_folder`, `self.config`, `self.contents` and
`self.offsets_and_lines`. -/
structure Ctx where
  path : String
  root_folder : String
  config : List (String × RuleEntry)
  contents : List Char
  offsets_and_lines : List (Nat × Nat)

/-! Rule identifiers, as named constants. -/

def ID01 : String := "ID01"
def ID02 : String := "ID02"
def MI01 : String := "MI01"
def SY01 : String := "SY01"
def SY02 : String := "SY02"
def SY03 : String := "SY03"
def SY04 : String := "SY04"
def SY05 : String := "SY05"
def TE01 : String := "TE01"
def TE02 : String := "TE02"
def TE03 : String := "TE03"
def TE04 : String := "TE04"
def TE05 : String := "TE05"
def RC01 : String := "RC01"
def RC02 : String := "RC02"
def RC03 : String := "RC03"
def GC01 : String := "GC01"
def GC02 : String := "GC02"
def GC03 : String := "GC03"
def GC04 : String := "GC04"

/-! The rule messages of the Python source (apostrophes written `\x27`). -/

def id01msg : String := "Identifiers may only contain lowercase characters and -"

def id02msg (min_length : Nat) : String :=
  "Identifiers must be at least " ++ toString min_length ++ " characters long"

def mi01msg (name : String) : String :=
  "Identifier " ++ name ++ " is present more than once in the file."

def sy01msg : String := "Terms are not supported."
def sy02msg : String := "Message references are not supported."
def sy03msg : String := "Terms are not supported."
def sy04msg : String := "Variants are not supported."
def sy05msg : String := "Attributes are not supported."

def te01msg : String :=
  "Strings with apostrophes should use foo’s instead of foo\x27s."
def te02msg : String :=
  "Strings with apostrophes should use foo’s instead of foo‘s."
def te03msg : String :=
  "Single-quoted strings should use Unicode ‘foo’ instead of \x27foo\x27."
def te04msg : String :=
  "Double-quoted strings should use Unicode “foo” instead of \"foo\"."
def te05msg : String :=
  "Strings with an ellipsis should use the Unicode … character instead of three periods"

def rc01msg : String :=
  "Resource comments (###) should be placed at the top of the file, just after the license header. There should only be one resource comment per file."
def rc02msg : String :=
  "Resource comments (###) should be followed by one empty line."
def rc03msg : String :=
  "Resource comments (###) should have one empty line above them."

def gc01msg : String :=
  "Group comments (##) should not be at the end of the file, they should always be above a message. Only an empty group comment is allowed at the end of a file."
def gc02msg : String :=
  "Group comments (##) should be followed by one empty line."
def gc03msg : String :=
  "Group comments (##) should have an empty line before them."
def gc04msg : String :=
  "Group comments (##) must be followed by at least one message. Make sure that a single group comment with multiple pararaphs is not separated by whitespace, as it will be interpreted as two different comments."

/-! ## Position index (`get_offsets_and_lines`, `span_to_line_and_col`) -/

/-- Worker for `get_offsets_and_lines`: walk the characters keeping the current
offset and the current line number; record `(offset, line)` at every newline
and then increment the line, exactly as the Python loop over
`re.finditer(r"\n", contents)` does. -/
def get_offsets_and_lines_go : List Char → Nat → Nat → List (Nat × Nat)
  | [], _, _ => []
  | c :: cs, idx, line =>
    if c = '\n' then (idx, line) :: get_offsets_and_lines_go cs (idx + 1) (line + 1)
    else get_offsets_and_lines_go cs (idx + 1) line

/-- `get_offsets_and_lines(contents)`: the list of `(offset, line)` pairs, one
per newline character of the source, starting at line 1. -/
def get_offsets_and_lines (contents : List Char) : List (Nat × Nat) :=
  get_offsets_and_lines_go contents 0 1

/-- `bisect.bisect_left(l, key)` on a list sorted in ascending order equals the
number of elements that compare lexicographically smaller than the key; the
lists built by `get_offsets_and_lines` have strictly increasing offsets, so
this count is exactly the insertion point Python computes. -/
def bisect_left (l : List (Nat × Nat)) (key : Nat × Nat) : Nat :=
  l.countP (fun p => p.1 < key.1 || (p.1 = key.1 && p.2 < key.2))

/-- `Linter.span_to_line_and_col`: binary-search the offsets table and return
`(col, line)` — in that order, as the Python method does.  The Python code
evaluates `self.offsets_and_lines[i][1]` unguarded; when `i` is past the end of
the table (the span starts at or after the last newline, or the file has no
newline at all) that raises `IndexError`, modelled as `none`. -/
def span_to_line_and_col (offsets_and_lines : List (Nat × Nat)) (start : Nat) :
    Option (Nat × Nat) :=
  let i := bisect_left offsets_and_lines (start, 0)
  let col :=
    if 0 < i then start - ((offsets_and_lines.get? (i - 1)).getD (0, 0)).1
    else 1 + start
  match offsets_and_lines.get? i with
  | some p => some (col, p.2)
  | none => none

/-- `Linter.add_error`: resolve the node span's start offset to a position and
append one result.  Propagates the `IndexError` of `span_to_line_and_col`. -/
def add_error (ctx : Ctx) (st : St) (span : Span) (rule msg : String) : Option St :=
  match span_to_line_and_col ctx.offsets_and_lines span.start with
  | some colLine =>
      some { st with
              results := st.results ++
                [⟨ctx.path, colLine.2, colLine.1, rule, msg⟩] }
  | none => none

/-! ## Text-quality analyzer (`TextElementHTMLParser`, the regexes of
`Linter.__init__`, and `Linter.visit_TextElement`) -/

/-- The straight apostrophe character, `chr(39)`. -/
def squote : Char := Char.ofNat 39

/-- The left single curly quote `‘`. -/
def lsquo : Char := Char.ofNat 0x2018

/-- One character of Python's regex class `\w` (ASCII fragment: letters,
digits, underscore; the inputs at issue use only ASCII). -/
def isWordChar (c : Char) : Bool := c.isAlpha || c.isDigit || c = '_'

/-- `re.search` of `apostrophe_re = \w'`: some word character immediately
followed by a straight apostrophe. -/
def hasWordApostrophe : List Char → Bool
  | a :: b :: rest => (isWordChar a && b = squote) || hasWordApostrophe (b :: rest)
  | _ => false

/-- `re.search` of `incorrect_apostrophe_re = \w‘\w`: a left single curly
quote between two word characters. -/
def hasIncorrectApostrophe : List Char → Bool
  | a :: b :: c :: rest =>
    (isWordChar a && b = lsquo && isWordChar c) || hasIncorrectApostrophe (b :: c :: rest)
  | _ => false

/-- After an opening quote, scan for a closing quote with no newline before
it: true iff some position `j ≥ 0` holds the quote and all earlier characters
are not newlines. -/
def scanClose (q : Char) : List Char → Bool
  | [] => false
  | d :: rest => d = q || (d != '\n' && scanClose q rest)

/-- The tail after an opening quote closes a `q(.+)q` span iff it starts with a
non-newline character (the `.+` needs at least one character) followed by a
closing quote reachable without crossing a newline. -/
def closesSpan (q : Char) : List Char → Bool
  | [] => false
  | d :: rest => d != '\n' && scanClose q rest

/-- `re.search` of `'(.+)'` (resp. `".+"`): an opening quote, at least one
non-newline character, and a closing quote on the same line. -/
def hasQuotedSpan (q : Char) : List Char → Bool
  | [] => false
  | c :: rest => (c = q && closesSpan q rest) || hasQuotedSpan q rest

/-- `re.search` of `ellipsis_re = \.\.\.`: three consecutive periods. -/
def hasEllipsis : List Char → Bool
  | a :: b :: c :: rest => (a = '.' && b = '.' && c = '.') || hasEllipsis (b :: c :: rest)
  | _ => false

/-- Index of the last occurrence of `q`, if any. -/
def lastIdxOf (q : Char) : List Char → Option Nat
  | [] => none
  | c :: rest =>
    match lastIdxOf q rest with
    | some j => some (j + 1)
    | none => if c = q then some 0 else none

/-- Index of the first occurrence of `q`, if any. -/
def firstIdxOf (q : Char) : List Char → Option Nat
  | [] => none
  | c :: rest => if c = q then some 0 else (firstIdxOf q rest).map (· + 1)

/-- One line's worth of `re.sub(r"'(.+)'", "\1", s)`.  The replacement string
`"\1"` in the Python source is the octal escape for `chr(1)` — not a
backreference — so the matched span is replaced by that single control
character.  Within one newline-free line the leftmost-longest (greedy) match
runs from the first quote to the last quote when they are at least two apart,
and the remainder holds no further quote, so at most one substitution
happens per line. -/
def collapseLine (q : Char) (l : List Char) : List Char :=
  match firstIdxOf q l, lastIdxOf q l with
  | some f, some t =>
    if f + 2 ≤ t then l.take f ++ (Char.ofNat 1 :: l.drop (t + 1)) else l
  | _, _ => l

/-- Split a character list at newlines (the separators are dropped; `n`
newlines give `n + 1` lines). -/
def splitOnNl : List Char → List (List Char)
  | [] => [[]]
  | c :: rest =>
    if c = '\n' then [] :: splitOnNl rest
    else
      match splitOnNl rest with
      | [] => [[c]]
      | line :: more => (c :: line) :: more

/-- Re-join lines with newlines. -/
def joinNl : List (List Char) → List Char
  | [] => []
  | [l] => l
  | l :: ls => l ++ '\n' :: joinNl ls

/-- `re.sub(single_quote_re, "\1", s)`: since `.+` cannot cross a newline, the
substitution acts independently on each line. -/
def collapseQuotes (l : List Char) : List Char :=
  joinNl ((splitOnNl l).map (collapseLine squote))

/-- Worker for `extract_text`: the data runs collected by
`TextElementHTMLParser.handle_data`.  Outside a tag, characters accumulate in
`buf` (kept reversed); a `<` flushes the current run and enters tag state; a
`>` leaves tag state.  This matches the stdlib `HTMLParser` on values whose
every `<` opens a tag that is closed by a later `>` and which contain no
character/entity references — the only shapes exercised here. -/
def extract_text_go : List Char → Bool → List Char → List String
  | [], _, buf => if buf = [] then [] else [⟨buf.reverse⟩]
  | c :: cs, true, buf =>
    if c = '>' then extract_text_go cs false buf else extract_text_go cs true buf
  | c :: cs, false, buf =>
    if c = '<' then
      if buf = [] then extract_text_go cs true []
      else (⟨buf.reverse⟩ : String) :: extract_text_go cs true []
    else extract_text_go cs false (c :: buf)

/-- The `extracted_text` list of a `TextElementHTMLParser` fed with the
element's value. -/
def extract_text (l : List Char) : List String := extract_text_go l false []

/-- The body of the `for text in parser.extracted_text` loop of
`visit_TextElement`, for one text run.  Note two faithful quirks of the
source: `cleaned_str` is recomputed from `node.value` (the full raw value,
markup included), not from the extracted run, and each regex test uses
`re.search`, so each rule fires at most once per run. -/
def checkTextRun (ctx : Ctx) (span : Span) (value : String) (st : St)
    (text : String) : Option St :=
  let cleaned := collapseQuotes value.toList
  let tl := text.toList
  (if hasWordApostrophe cleaned then add_error ctx st span TE01 te01msg else some st).bind
    fun st1 =>
  (if hasIncorrectApostrophe tl then add_error ctx st1 span TE02 te02msg else some st1).bind
    fun st2 =>
  (if hasQuotedSpan squote tl then add_error ctx st2 span TE03 te03msg else some st2).bind
    fun st3 =>
  (if hasQuotedSpan '"' tl then add_error ctx st3 span TE04 te04msg else some st3).bind
    fun st4 =>
  (if hasEllipsis tl then add_error ctx st4 span TE05 te05msg else some st4)

/-- The loop of `visit_TextElement` over the extracted text runs. -/
def checkTextRuns (ctx : Ctx) (span : Span) (value : String) :
    St → List String → Option St
  | st, [] => some st
  | st, t :: ts =>
    match checkTextRun ctx span value st t with
    | some st2 => checkTextRuns ctx span value st2 ts
    | none => none

/-- `Linter.visit_TextElement`: feed the value to the HTML parser and test
each extracted run.  An element whose value yields no data runs (for example
an empty value) performs no checks at all. -/
def visit_TextElement (ctx : Ctx) (st : St) (span : Span) (value : String) :
    Option St :=
  checkTextRuns ctx span value st (extract_text value.toList)

/-! ## Newline counting (`get_newlines_count_after` / `get_newlines_count_before`)
and the comment visitors -/

/-- Common loop of both newline counters: walk characters in scan order,
asserting each examined character is not a carriage return (`none` on the
`AssertionError`), stop at the first non-newline, count the newlines. -/
def count_newlines_run : List Char → Option Nat
  | [] => some 0
  | c :: cs =>
    if c = '\r' then none
    else if c != '\n' then some 0
    else (count_newlines_run cs).map (· + 1)

/-- `get_newlines_count_after(span, contents)`: scan forward from `span.end`. -/
def get_newlines_count_after (span : Span) (contents : List Char) : Option Nat :=
  count_newlines_run (contents.drop span.stop)

/-- `get_newlines_count_before(span, contents)`: scan backward from
`span.start - 1` down to index 1 — the Python loop `range(span.start - 1, 0, -1)`
never examines index 0. -/
def get_newlines_count_before (span : Span) (contents : List Char) : Option Nat :=
  count_newlines_run ((contents.take span.start).drop 1).reverse

/-- `Linter.visit_ResourceComment`: RC01 when a non-comment entry was already
seen, otherwise count blank lines around the comment (both counters run before
the only-content early return, so their CR asserts can fire) and report RC02 or
RC03; each branch returns, so at most one diagnostic per comment.  The
only-content test compares `span.end` with `len(contents) - 1` over the
integers. -/
def visit_ResourceComment (ctx : Ctx) (st : St) (span : Span) : Option St :=
  if !st.node_can_be_resource_comment then
    add_error ctx st span RC01 rc01msg
  else
    match get_newlines_count_after span ctx.contents,
          get_newlines_count_before span ctx.contents with
    | some lines_after, some lines_before =>
      if (span.stop : Int) = (ctx.contents.length : Int) - 1 then some st
      else if lines_after ≠ 2 then add_error ctx st span RC02 rc02msg
      else if lines_before ≠ 2 then add_error ctx st span RC03 rc03msg
      else some st
    | _, _ => none

/-- `Linter.visit_GroupComment`: GC04 when a group comment is still pending
(without clearing the flag, as the Python early return skips the assignment),
otherwise clear `can_have_group_comment`, count the surrounding blank lines and
report at most one of GC01/GC02/GC03. -/
def visit_GroupComment (ctx : Ctx) (st : St) (span : Span) (content : String) :
    Option St :=
  if !st.can_have_group_comment then
    add_error ctx st span GC04 gc04msg
  else
    let st := { st with can_have_group_comment := false }
    match get_newlines_count_after span ctx.contents,
          get_newlines_count_before span ctx.contents with
    | some lines_after, some lines_before =>
      if (span.stop : Int) = (ctx.contents.length : Int) - 1 then
        if content = "" then some st else add_error ctx st span GC01 gc01msg
      else if lines_after ≠ 2 then add_error ctx st span GC02 gc02msg
      else if lines_before ≠ 2 then add_error ctx st span GC03 gc03msg
      else some st
    | _, _ => none

/-! ## The Fluent AST

Node kinds the visitor can reach, with the fields it can read.  `Variant` keys
and select-expression selectors are carried but never visited
(`visit_SelectExpression` only descends into variant values); reference nodes
carry their identifier but the visitor never descends into it. -/

/-- `Identifier { name, span }`. -/
structure Identifier where
  span : Span
  name : String
deriving DecidableEq, Repr

/-- A variant key: an `Identifier` or a `NumberLiteral`; never visited. -/
inductive VariantKey where
  | Identifier (id : Identifier)
  | NumberLiteral (span : Span) (value : String)
deriving DecidableEq, Repr

mutual

/-- A `Pattern`: the value of a message, term, attribute or variant. -/
inductive FPattern where
  | mk (span : Span) (elements : PatternElementList)
deriving DecidableEq, Repr

/-- The elements of a `Pattern` (a specialised list so that the mutual
recursion below is structural). -/
inductive PatternElementList where
  | nil
  | cons (head : PatternElement) (tail : PatternElementList)
deriving DecidableEq, Repr

/-- A pattern element: literal text or a placeable. -/
inductive PatternElement where
  | TextElement (span : Span) (value : String)
  | Placeable (span : Span) (expression : FExpression)
deriving DecidableEq, Repr

/-- The expressions the visitor can reach inside placeables. -/
inductive FExpression where
  | StringLiteral (span : Span) (value : String)
  | NumberLiteral (span : Span) (value : String)
  | MessageReference (span : Span) (id : Identifier)
  | TermReference (span : Span) (id : Identifier)
  | FunctionReference (span : Span) (id : Identifier)
  | VariableReference (span : Span) (id : Identifier)
  | SelectExpression (span : Span) (selector : FExpression) (variants : VariantList)
  | Placeable (span : Span) (expression : FExpression)
deriving DecidableEq, Repr

/-- A select-expression `Variant`. -/
inductive Variant where
  | mk (span : Span) (key : VariantKey) (value : FPattern) (default : Bool)
deriving DecidableEq, Repr

/-- The variants of a select expression. -/
inductive VariantList where
  | nil
  | cons (head : Variant) (tail : VariantList)
deriving DecidableEq, Repr

end

/-- An `Attribute { id, value }` of a message or term. -/
structure FAttribute where
  span : Span
  id : Identifier
  value : FPattern
deriving DecidableEq, Repr

/-- A top-level entry of a `Resource`.  `Junk` (unparsed input) and comments
attached to a message are omitted: the visitor treats them as inert. -/
inductive Entry where
  | Message (span : Span) (id : Identifier) (value : Option FPattern)
      (attributes : List FAttribute)
  | Term (span : Span) (id : Identifier) (value : FPattern)
      (attributes : List FAttribute)
  | Comment (span : Span) (content : String)
  | GroupComment (span : Span) (content : String)
  | ResourceComment (span : Span) (content : String)
deriving DecidableEq, Repr

/-- The root `Resource` node. -/
structure Resource where
  span : Span
  body : List Entry
deriving DecidableEq, Repr

/-- `config[rule]["disabled"]` guarded by `rule in config`, the test pattern of
the SY01–SY05 checks. -/
def gatedDisabledB (config : List (String × RuleEntry)) (rule : String) : Bool :=
  match config.lookup rule with
  | some e => e.disabled
  | none => false

/-- One character of the class `[a-z0-9-]`. -/
def identifier_char (c : Char) : Bool :=
  ('a' ≤ c && c ≤ 'z') || ('0' ≤ c && c ≤ '9') || c = '-'

/-- `identifier_re.fullmatch(name)` for `identifier_re = [a-z0-9-]+`: the name
is nonempty and every character is a lowercase letter, digit or hyphen. -/
def identifier_fullmatch (name : String) : Bool :=
  name.toList ≠ [] && name.toList.all identifier_char

/-- `Linter.visit_Identifier`: the ID01 format check and the ID02 length
check, each guarded by presence in the configuration, the `enabled` flag and
the two exclusion lists.  `len(node.name)` is the character count. -/
def visit_Identifier (ctx : Ctx) (st : St) (node : Identifier) : Option St :=
  let step1 :=
    match ctx.config.lookup ID01 with
    | some e =>
      if e.enabled && !(e.exclusions_files.contains ctx.path)
          && !(e.exclusions_messages.contains node.name)
          && !(identifier_fullmatch node.name) then
        add_error ctx st node.span ID01 id01msg
      else some st
    | none => some st
  step1.bind fun st1 =>
    match ctx.config.lookup ID02 with
    | some e =>
      if e.enabled && decide (node.name.length < e.min_length)
          && !(e.exclusions_files.contains ctx.path)
          && !(e.exclusions_messages.contains node.name) then
        add_error ctx st1 node.span ID02 (id02msg e.min_length)
      else some st1
    | none => some st1

/-! ## The tree visitor

The Fluent `visitor.Visitor.visit` dispatches on the node class name to a
`visit_X` method when the `Linter` defines one and to `generic_visit`
otherwise.  The `Linter`'s own `generic_visit` first updates
`state["node_can_be_resource_comment"]` — it stays true only while the node is
a `Resource`, a `Span` or a standalone `Comment` — and then descends into the
children.  Nodes with a `visit_X` override (`Message`, `Term`, `Attribute`,
`Identifier`, `TextElement`, the four reference kinds, `SelectExpression`,
`ResourceComment`, `GroupComment`) skip that state update.  Visiting a `Span`
child is always a no-op (allowed name, no node children), so span children are
not traversed explicitly here. -/

/-- `node.variants` truthiness: the variant list is nonempty. -/
def variantsNonempty : VariantList → Bool
  | .nil => false
  | .cons _ _ => true

mutual

/-- `visit` on a `Pattern` node: no `visit_Pattern` override exists, so
`Linter.generic_visit` runs — `"Pattern"` is not an allowed name, so
`node_can_be_resource_comment` becomes false — and the elements are visited. -/
def visitPattern (ctx : Ctx) (st : St) : FPattern → Option St
  | .mk _ elements =>
    visitElements ctx { st with node_can_be_resource_comment := false } elements

/-- `super().generic_visit(pattern)` as called by `visit_Attribute` and
`visit_SelectExpression`: the base-class generic visit descends into the
children without the `Linter` state update. -/
def genericVisitPattern (ctx : Ctx) (st : St) : FPattern → Option St
  | .mk _ elements => visitElements ctx st elements

/-- Visit each element of a pattern in order. -/
def visitElements (ctx : Ctx) (st : St) : PatternElementList → Option St
  | .nil => some st
  | .cons e es =>
    match visitElement ctx st e with
    | some st2 => visitElements ctx st2 es
    | none => none

/-- `visit` on one pattern element: `TextElement` has an override; `Placeable`
has none, so `Linter.generic_visit` clears the resource-comment state and
descends into the wrapped expression. -/
def visitElement (ctx : Ctx) (st : St) : PatternElement → Option St
  | .TextElement span value => visit_TextElement ctx st span value
  | .Placeable _ expression =>
    visitExpression ctx { st with node_can_be_resource_comment := false } expression

/-- `visit` on an expression.  String and number literals have no override
(generic visit: state update only, their children are plain values).  The four
reference kinds have overrides that never descend — `visit_MessageReference`
and `visit_TermReference` only report SY02/SY03 when the configuration marks
the feature disabled, `visit_FunctionReference` and `visit_VariableReference`
do nothing.  `visit_SelectExpression` reports SY04 when variants are present
and disabled, and otherwise base-generic-visits each variant's value — never
the selector and never the variant keys. -/
def visitExpression (ctx : Ctx) (st : St) : FExpression → Option St
  | .StringLiteral _ _ => some { st with node_can_be_resource_comment := false }
  | .NumberLiteral _ _ => some { st with node_can_be_resource_comment := false }
  | .MessageReference span _ =>
    if gatedDisabledB ctx.config SY02 then add_error ctx st span SY02 sy02msg
    else some st
  | .TermReference span _ =>
    if gatedDisabledB ctx.config SY03 then add_error ctx st span SY03 sy03msg
    else some st
  | .FunctionReference _ _ => some st
  | .VariableReference _ _ => some st
  | .SelectExpression span _ variants =>
    if variantsNonempty variants && gatedDisabledB ctx.config SY04 then
      add_error ctx st span SY04 sy04msg
    else visitVariantValues ctx st variants
  | .Placeable _ expression =>
    visitExpression ctx { st with node_can_be_resource_comment := false } expression

/-- The `for variant in node.variants: super().generic_visit(variant.value)`
loop of `visit_SelectExpression`. -/
def visitVariantValues (ctx : Ctx) (st : St) : VariantList → Option St
  | .nil => some st
  | .cons (.mk _ _ value _) vs =>
    match genericVisitPattern ctx st value with
    | some st2 => visitVariantValues ctx st2 vs
    | none => none

end

/-- `Linter.visit_Attribute`: report SY05 (without recursing) when the
configuration marks attributes as unsupported, otherwise base-generic-visit
only the attribute's value — the attribute's identifier is never visited. -/
def visit_Attribute (ctx : Ctx) (st : St) (node : FAttribute) : Option St :=
  if gatedDisabledB ctx.config SY05 then add_error ctx st node.span SY05 sy05msg
  else genericVisitPattern ctx st node.value

/-- Visit each attribute of a message or term in order. -/
def visitAttributes (ctx : Ctx) : St → List FAttribute → Option St
  | st, [] => some st
  | st, a :: as_ =>
    match visit_Attribute ctx st a with
    | some st2 => visitAttributes ctx st2 as_
    | none => none

/-- `Linter.visit_Message`: allow a following group comment, report MI01 when
the identifier was already seen (otherwise record it), then base-generic-visit
the children in field order: the identifier, the optional value, the
attributes. -/
def visit_Message (ctx : Ctx) (st : St) (span : Span) (id : Identifier)
    (value : Option FPattern) (attributes : List FAttribute) : Option St :=
  let st := { st with can_have_group_comment := true }
  let step1 :=
    if st.ids.contains id.name then
      add_error ctx st span MI01 (mi01msg id.name)
    else some { st with ids := st.ids ++ [id.name] }
  step1.bind fun st1 =>
    (visit_Identifier ctx st1 id).bind fun st2 =>
      (match value with
       | some p => visitPattern ctx st2 p
       | none => some st2).bind fun st3 =>
        visitAttributes ctx st3 attributes

/-- `Linter.visit_Term`: allow a following group comment, report SY01 when the
configuration marks terms as unsupported, then base-generic-visit the
children: identifier, value, attributes.  There is no duplicate check. -/
def visit_Term (ctx : Ctx) (st : St) (span : Span) (id : Identifier)
    (value : FPattern) (attributes : List FAttribute) : Option St :=
  let st := { st with can_have_group_comment := true }
  let step1 :=
    if gatedDisabledB ctx.config SY01 then add_error ctx st span SY01 sy01msg
    else some st
  step1.bind fun st1 =>
    (visit_Identifier ctx st1 id).bind fun st2 =>
      (visitPattern ctx st2 value).bind fun st3 =>
        visitAttributes ctx st3 attributes

/-- `visit` on one top-level entry.  A standalone `Comment` has no override
and its name is allowed, so visiting it changes nothing. -/
def visitEntry (ctx : Ctx) (st : St) : Entry → Option St
  | .Message span id value attributes => visit_Message ctx st span id value attributes
  | .Term span id value attributes => visit_Term ctx st span id value attributes
  | .Comment _ _ => some st
  | .GroupComment span content => visit_GroupComment ctx st span content
  | .ResourceComment span _ => visit_ResourceComment ctx st span

/-- Visit the body of a resource in order. -/
def visitEntries (ctx : Ctx) : St → List Entry → Option St
  | st, [] => some st
  | st, e :: es =>
    match visitEntry ctx st e with
    | some st2 => visitEntries ctx st2 es
    | none => none

/-- The initial `Linter` state set up in `__init__`. -/
def initSt : St := ⟨[], [], true, true⟩

/-- `linter.visit(parse(contents))` followed by reading `linter.results`:
visiting the root `Resource` keeps `node_can_be_resource_comment` true (its
name is allowed) and descends into the body entries. -/
def lintResource (ctx : Ctx) (r : Resource) : Option (List Diag) :=
  (visitEntries ctx initSt r.body).map St.results

/-! ## File-level driver (`lint`, `get_file_list`, `main`)

The filesystem, the YAML loader and the Fluent parser are external
collaborators; they are abstracted as an `Env` record.  `os.walk` on a path
that does not exist yields nothing (its default `onerror` swallows the
error), so a missing root folder is an environment whose walk of that folder
is the empty list. -/

/-- The external environment of one run: the files `os.walk` finds under a
folder (already joined to full paths), file reading, `os.path.exists`, the
YAML configuration loader, the Fluent parser, and the path of the `config.yml`
co-located with the script. -/
structure Env where
  walk : String → List String
  read_file : String → String
  path_exists : String → Bool
  load_config : String → List (String × RuleEntry)
  parse : String → Resource
  script_config_path : String

/-- The `.ftl` suffix. -/
def ftlExt : String := ".ftl"

/-- Insert into a sorted list of strings, keeping order. -/
def insertSorted (s : String) : List String → List String
  | [] => [s]
  | t :: ts => if s ≤ t then s :: t :: ts else t :: insertSorted s ts

/-- `list.sort()` on strings (ascending, as Python sorts `str`). -/
def sortStrings : List String → List String
  | [] => []
  | s :: ss => insertSorted s (sortStrings ss)

/-- `get_file_list`: the files under the root with the `.ftl` extension, in
sorted order. -/
def get_file_list (env : Env) (root_folder : String) : List String :=
  sortStrings ((env.walk root_folder).filter (fun f => f.endsWith ftlExt))

/-- One file of the `for path in files` loop of `lint`: read it, build the
position index, parse it and run a fresh `Linter` over the tree.  (The paths
from `get_file_list` are already absolute, so the `os.path.join` in the loop
returns them unchanged.) -/
def lintFile (path root_folder : String) (config : List (String × RuleEntry))
    (contents : String) (r : Resource) : Option (List Diag) :=
  lintResource
    ⟨path, root_folder, config, contents.toList,
     get_offsets_and_lines contents.toList⟩ r

/-- The file loop of `lint` with a fixed configuration, accumulating results;
an uncaught exception in any file (modelled `none`) aborts the run. -/
def lintFiles (env : Env) (root_folder : String)
    (config : List (String × RuleEntry)) : List String → List Diag →
    Option (List Diag)
  | [], acc => some acc
  | p :: ps, acc =>
    let contents := env.read_file p
    match lintFile p root_folder config contents (env.parse contents) with
    | some ds => lintFiles env root_folder config ps (acc ++ ds)
    | none => none

/-- `lint(root_folder, config_path)`: resolve the configuration file (the
given path, else the script-side default), load it when it exists and fall
back to the empty configuration when it does not — a missing explicitly-given
configuration only prints a warning and the run continues — then lint every
file found under the root. -/
def lint (env : Env) (root_folder : String) (config_path : Option String) :
    Option (List Diag) :=
  let config_file := config_path.getD env.script_config_path
  let config :=
    if env.path_exists config_file then env.load_config config_file else []
  lintFiles env root_folder config (get_file_list env root_folder) []

/-- The process exit code of `main`: `sys.exit(1)` when `lint` returned a
nonempty result list, normal termination (code 0) when it returned an empty
one; an uncaught exception (CPython) also exits with code 1. -/
def main_exit (env : Env) (root_folder : String) (config_path : Option String) :
    Nat :=
  match lint env root_folder config_path with
  | some results => if results = [] then 0 else 1
  | none => 1

/-! ## Helper lemmas: how each visit function extends the state -/

/-- The results grew by a suffix of diagnostics all satisfying `P`. -/
def ResultsOnly (st st' : St) (P : Diag → Prop) : Prop :=
  ∃ new, st'.results = st.results ++ new ∧ ∀ d ∈ new, P d

/-- The results grew by `P`-diagnostics and the seen-identifier list is
untouched. -/
def AddsOnly (st st' : St) (P : Diag → Prop) : Prop :=
  st'.ids = st.ids ∧ ResultsOnly st st' P

theorem ResultsOnly.noop (st : St) (P : Diag → Prop) : ResultsOnly st st P :=
  ⟨[], by simp, by simp⟩

theorem ResultsOnly.of_eq {st st' : St} (P : Diag → Prop)
    (h : st'.results = st.results) : ResultsOnly st st' P :=
  ⟨[], by simp [h], by simp⟩

theorem ResultsOnly.chain {st1 st2 st3 : St} {P : Diag → Prop}
    (h1 : ResultsOnly st1 st2 P) (h2 : ResultsOnly st2 st3 P) :
    ResultsOnly st1 st3 P := by
  obtain ⟨n1, e1, p1⟩ := h1
  obtain ⟨n2, e2, p2⟩ := h2
  refine ⟨n1 ++ n2, by simp [e2, e1], ?_⟩
  intro d hd
  rcases List.mem_append.mp hd with h | h
  · exact p1 d h
  · exact p2 d h

theorem ResultsOnly.weaken {st st' : St} {P Q : Diag → Prop}
    (h : ResultsOnly st st' P) (hPQ : ∀ d, P d → Q d) : ResultsOnly st st' Q := by
  obtain ⟨n, e, p⟩ := h
  exact ⟨n, e, fun d hd => hPQ d (p d hd)⟩

theorem AddsOnly.unchanged (st : St) (P : Diag → Prop) : AddsOnly st st P :=
  ⟨rfl, ResultsOnly.noop st P⟩

theorem AddsOnly.comp {st1 st2 st3 : St} {P : Diag → Prop}
    (h1 : AddsOnly st1 st2 P) (h2 : AddsOnly st2 st3 P) : AddsOnly st1 st3 P :=
  ⟨h2.1.trans h1.1, h1.2.chain h2.2⟩

theorem AddsOnly.relax {st st' : St} {P Q : Diag → Prop}
    (h : AddsOnly st st' P) (hPQ : ∀ d, P d → Q d) : AddsOnly st st' Q :=
  ⟨h.1, h.2.weaken hPQ⟩

/-- What `add_error` does when it succeeds. -/
theorem add_error_shape {ctx : Ctx} {st st' : St} {span : Span} {r m : String}
    (h : add_error ctx st span r m = some st') :
    st'.ids = st.ids ∧ st'.node_can_be_resource_comment = st.node_can_be_resource_comment ∧
      st'.can_have_group_comment = st.can_have_group_comment ∧
      ∃ l c, st'.results = st.results ++ [⟨ctx.path, l, c, r, m⟩] := by
  unfold add_error at h
  cases hres : span_to_line_and_col ctx.offsets_and_lines span.start with
  | none => rw [hres] at h; exact absurd h (by simp)
  | some p =>
    rw [hres] at h
    simp only [Option.some.injEq] at h
    subst h
    exact ⟨rfl, rfl, rfl, p.2, p.1, rfl⟩

/-- `add_error` adds exactly one diagnostic with the given rule and message. -/
theorem add_error_adds {ctx : Ctx} {st st' : St} {span : Span} {r m : String}
    (h : add_error ctx st span r m = some st') :
    AddsOnly st st' (fun d => d.rule = r ∧ d.msg = m) := by
  obtain ⟨hids, _, _, l, c, hres⟩ := add_error_shape h
  exact ⟨hids, [⟨ctx.path, l, c, r, m⟩], hres, by simp⟩

/-- A conditional `add_error` (the shape of every individual check). -/
theorem cond_add_error {ctx : Ctx} {st st' : St} {span : Span} {r m : String}
    {b : Bool} (h : (if b then add_error ctx st span r m else some st) = some st') :
    AddsOnly st st' (fun d => d.rule = r ∧ d.msg = m) := by
  cases b with
  | true => exact add_error_adds (by simpa using h)
  | false =>
    simp only [if_neg, Bool.false_eq_true, not_false_iff, reduceIte,
      Option.some.injEq] at h
    subst h
    exact AddsOnly.unchanged st _

/-- `config[rule]["enabled"]` guarded by `rule in config` (false when the rule
has no entry), the gate of the ID01/ID02 checks. -/
def gatedEnabledB (config : List (String × RuleEntry)) (rule : String) : Bool :=
  match config.lookup rule with
  | some e => e.enabled
  | none => false

/-- A text-quality diagnostic. -/
def teOk (d : Diag) : Prop :=
  d.rule = TE01 ∨ d.rule = TE02 ∨ d.rule = TE03 ∨ d.rule = TE04 ∨ d.rule = TE05

/-- Any diagnostic the pattern-level traversal can produce: a text-quality
rule, or one of SY02/SY03/SY04 — and those only when the configuration has an
entry for the rule with `disabled: true`. -/
def patOk (config : List (String × RuleEntry)) (d : Diag) : Prop :=
  teOk d ∨
    ((d.rule = SY02 ∨ d.rule = SY03 ∨ d.rule = SY04) ∧
      gatedDisabledB config d.rule = true)

theorem checkTextRun_adds {ctx : Ctx} {span : Span} {value : String} {st st' : St}
    {text : String} (h : checkTextRun ctx span value st text = some st') :
    AddsOnly st st' teOk := by
  unfold checkTextRun at h
  obtain ⟨st1, h1, h⟩ := Option.bind_eq_some.mp h
  obtain ⟨st2, h2, h⟩ := Option.bind_eq_some.mp h
  obtain ⟨st3, h3, h⟩ := Option.bind_eq_some.mp h
  obtain ⟨st4, h4, h5⟩ := Option.bind_eq_some.mp h
  have a1 : AddsOnly st st1 teOk :=
    (cond_add_error h1).relax (fun d hd => Or.inl hd.1)
  have a2 : AddsOnly st1 st2 teOk :=
    (cond_add_error h2).relax (fun d hd => Or.inr (Or.inl hd.1))
  have a3 : AddsOnly st2 st3 teOk :=
    (cond_add_error h3).relax (fun d hd => Or.inr (Or.inr (Or.inl hd.1)))
  have a4 : AddsOnly st3 st4 teOk :=
    (cond_add_error h4).relax (fun d hd => Or.inr (Or.inr (Or.inr (Or.inl hd.1))))
  have a5 : AddsOnly st4 st' teOk :=
    (cond_add_error h5).relax (fun d hd => Or.inr (Or.inr (Or.inr (Or.inr hd.1))))
  exact (((a1.comp a2).comp a3).comp a4).comp a5

theorem checkTextRuns_adds {ctx : Ctx} {span : Span} {value : String} :
    ∀ {texts : List String} {st st' : St},
    checkTextRuns ctx span value st texts = some st' → AddsOnly st st' teOk := by
  intro texts
  induction texts with
  | nil =>
    intro st st' h
    simp only [checkTextRuns, Option.some.injEq] at h
    subst h
    exact AddsOnly.unchanged st _
  | cons t ts ih =>
    intro st st' h
    simp only [checkTextRuns] at h
    cases h1 : checkTextRun ctx span value st t with
    | none => rw [h1] at h; exact absurd h (by simp)
    | some st2 =>
      rw [h1] at h
      exact (checkTextRun_adds h1).comp (ih h)

theorem visit_TextElement_adds {ctx : Ctx} {st st' : St} {span : Span}
    {value : String} (h : visit_TextElement ctx st span value = some st') :
    AddsOnly st st' teOk :=
  checkTextRuns_adds h

/-- Transport an `AddsOnly` along a source state with the same results and
identifier list (the traversal flags may differ). -/
theorem AddsOnly.cast_left {st st2 st' : St} {P : Diag → Prop}
    (h : AddsOnly st2 st' P) (hids : st2.ids = st.ids)
    (hres : st2.results = st.results) : AddsOnly st st' P := by
  obtain ⟨hi, n, e, p⟩ := h
  exact ⟨hi.trans hids, n, by rw [e, hres], p⟩

/-- A conditional `add_error`, remembering that the guard held whenever a
diagnostic was produced. -/
theorem cond_add_error_guard {ctx : Ctx} {st st' : St} {span : Span}
    {r m : String} {b : Bool}
    (h : (if b then add_error ctx st span r m else some st) = some st') :
    AddsOnly st st' (fun d => d.rule = r ∧ d.msg = m ∧ b = true) := by
  cases b with
  | true =>
    exact (add_error_adds (by simpa using h)).relax
      (fun d hd => ⟨hd.1, hd.2, rfl⟩)
  | false =>
    simp only [Bool.false_eq_true, reduceIte, Option.some.injEq] at h
    subst h
    exact AddsOnly.unchanged st _

mutual

theorem visitPattern_adds : ∀ (p : FPattern) {ctx : Ctx} {st st' : St},
    visitPattern ctx st p = some st' → AddsOnly st st' (patOk ctx.config)
  | .mk _ elements, ctx, st, st', h => by
    simp only [visitPattern] at h
    exact (visitElements_adds elements h).cast_left rfl rfl

theorem genericVisitPattern_adds : ∀ (p : FPattern) {ctx : Ctx} {st st' : St},
    genericVisitPattern ctx st p = some st' → AddsOnly st st' (patOk ctx.config)
  | .mk _ elements, _, _, _, h => by
    simp only [genericVisitPattern] at h
    exact visitElements_adds elements h

theorem visitElements_adds : ∀ (es : PatternElementList) {ctx : Ctx} {st st' : St},
    visitElements ctx st es = some st' → AddsOnly st st' (patOk ctx.config)
  | .nil, _, st, st', h => by
    simp only [visitElements, Option.some.injEq] at h
    subst h
    exact AddsOnly.unchanged st _
  | .cons e es, ctx, st, st', h => by
    simp only [visitElements] at h
    cases h1 : visitElement ctx st e with
    | none => rw [h1] at h; exact absurd h (by simp)
    | some st2 =>
      rw [h1] at h
      exact (visitElement_adds e h1).comp (visitElements_adds es h)

theorem visitElement_adds : ∀ (e : PatternElement) {ctx : Ctx} {st st' : St},
    visitElement ctx st e = some st' → AddsOnly st st' (patOk ctx.config)
  | .TextElement _ _, _, _, _, h => by
    simp only [visitElement] at h
    exact (visit_TextElement_adds h).relax (fun d hd => Or.inl hd)
  | .Placeable _ expression, ctx, st, st', h => by
    simp only [visitElement] at h
    exact (visitExpression_adds expression h).cast_left rfl rfl

theorem visitExpression_adds : ∀ (e : FExpression) {ctx : Ctx} {st st' : St},
    visitExpression ctx st e = some st' → AddsOnly st st' (patOk ctx.config)
  | .StringLiteral _ _, _, st, st', h => by
    simp only [visitExpression, Option.some.injEq] at h
    subst h
    exact (AddsOnly.unchanged _ _).cast_left rfl rfl
  | .NumberLiteral _ _, _, st, st', h => by
    simp only [visitExpression, Option.some.injEq] at h
    subst h
    exact (AddsOnly.unchanged _ _).cast_left rfl rfl
  | .MessageReference _ _, ctx, st, st', h => by
    simp only [visitExpression] at h
    exact (cond_add_error_guard h).relax
      (fun d hd => Or.inr ⟨Or.inl hd.1, by rw [hd.1]; exact hd.2.2⟩)
  | .TermReference _ _, ctx, st, st', h => by
    simp only [visitExpression] at h
    exact (cond_add_error_guard h).relax
      (fun d hd => Or.inr ⟨Or.inr (Or.inl hd.1), by rw [hd.1]; exact hd.2.2⟩)
  | .FunctionReference _ _, _, st, st', h => by
    simp only [visitExpression, Option.some.injEq] at h
    subst h
    exact AddsOnly.unchanged st _
  | .VariableReference _ _, _, st, st', h => by
    simp only [visitExpression, Option.some.injEq] at h
    subst h
    exact AddsOnly.unchanged st _
  | .SelectExpression _ _ variants, ctx, st, st', h => by
    simp only [visitExpression] at h
    cases hb : (variantsNonempty variants && gatedDisabledB ctx.config SY04) with
    | true =>
      rw [hb] at h
      simp only [if_pos] at h
      have hb2 : gatedDisabledB ctx.config SY04 = true := by
        simp only [Bool.and_eq_true] at hb
        exact hb.2
      exact (add_error_adds h).relax
        (fun d hd => Or.inr ⟨Or.inr (Or.inr hd.1), by rw [hd.1]; exact hb2⟩)
    | false =>
      rw [hb] at h
      simp only [Bool.false_eq_true, reduceIte] at h
      exact visitVariantValues_adds variants h
  | .Placeable _ expression, ctx, st, st', h => by
    simp only [visitExpression] at h
    exact (visitExpression_adds expression h).cast_left rfl rfl

theorem visitVariantValues_adds : ∀ (vs : VariantList) {ctx : Ctx} {st st' : St},
    visitVariantValues ctx st vs = some st' → AddsOnly st st' (patOk ctx.config)
  | .nil, _, st, st', h => by
    simp only [visitVariantValues, Option.some.injEq] at h
    subst h
    exact AddsOnly.unchanged st _
  | .cons (.mk _ _ value _) vs, ctx, st, st', h => by
    simp only [visitVariantValues] at h
    cases h1 : genericVisitPattern ctx st value with
    | none => rw [h1] at h; exact absurd h (by simp)
    | some st2 =>
      rw [h1] at h
      exact (genericVisitPattern_adds value h1).comp (visitVariantValues_adds vs h)

end

/-- A diagnostic `visit_Identifier` can produce: ID01 or ID02, and only when
the configuration has an entry for the rule with `enabled: true`. -/
def idOk (config : List (String × RuleEntry)) (d : Diag) : Prop :=
  (d.rule = ID01 ∨ d.rule = ID02) ∧ gatedEnabledB config d.rule = true

theorem visit_Identifier_adds {ctx : Ctx} {st st' : St} {node : Identifier}
    (h : visit_Identifier ctx st node = some st') :
    AddsOnly st st' (idOk ctx.config) := by
  unfold visit_Identifier at h
  obtain ⟨st1, h1, h2⟩ := Option.bind_eq_some.mp h
  have a1 : AddsOnly st st1 (idOk ctx.config) := by
    cases hc : ctx.config.lookup ID01 with
    | none =>
      rw [hc] at h1
      simp only [Option.some.injEq] at h1
      subst h1
      exact AddsOnly.unchanged st _
    | some e =>
      rw [hc] at h1
      refine (cond_add_error_guard h1).relax (fun d hd => ⟨Or.inl hd.1, ?_⟩)
      have hb := hd.2.2
      simp only [Bool.and_eq_true] at hb
      rw [hd.1]
      simp [gatedEnabledB, hc, hb.1.1.1]
  have a2 : AddsOnly st1 st' (idOk ctx.config) := by
    cases hc : ctx.config.lookup ID02 with
    | none =>
      rw [hc] at h2
      simp only [Option.some.injEq] at h2
      subst h2
      exact AddsOnly.unchanged st1 _
    | some e =>
      rw [hc] at h2
      refine (cond_add_error_guard h2).relax (fun d hd => ⟨Or.inr hd.1, ?_⟩)
      have hb := hd.2.2
      simp only [Bool.and_eq_true] at hb
      rw [hd.1]
      simp [gatedEnabledB, hc, hb.1.1.1]
  exact a1.comp a2

/-- A diagnostic `visit_Attribute` can produce: anything from the value's
pattern, or SY05 when configured disabled. -/
def attrOk (config : List (String × RuleEntry)) (d : Diag) : Prop :=
  patOk config d ∨ (d.rule = SY05 ∧ gatedDisabledB config SY05 = true)

theorem visit_Attribute_adds {ctx : Ctx} {st st' : St} {node : FAttribute}
    (h : visit_Attribute ctx st node = some st') :
    AddsOnly st st' (attrOk ctx.config) := by
  unfold visit_Attribute at h
  cases hb : gatedDisabledB ctx.config SY05 with
  | true =>
    rw [hb] at h
    simp only [if_pos] at h
    exact (add_error_adds h).relax (fun d hd => Or.inr ⟨hd.1, hb⟩)
  | false =>
    rw [hb] at h
    simp only [Bool.false_eq_true, reduceIte] at h
    exact (genericVisitPattern_adds _ h).relax (fun d hd => Or.inl hd)

theorem visitAttributes_adds {ctx : Ctx} :
    ∀ {attrs : List FAttribute} {st st' : St},
    visitAttributes ctx st attrs = some st' → AddsOnly st st' (attrOk ctx.config) := by
  intro attrs
  induction attrs with
  | nil =>
    intro st st' h
    simp only [visitAttributes, Option.some.injEq] at h
    subst h
    exact AddsOnly.unchanged st _
  | cons a as_ ih =>
    intro st st' h
    simp only [visitAttributes] at h
    cases h1 : visit_Attribute ctx st a with
    | none => rw [h1] at h; exact absurd h (by simp)
    | some st2 =>
      rw [h1] at h
      exact (visit_Attribute_adds h1).comp (ih h)

/-- A diagnostic producible while visiting a message or term apart from the
duplicate check: pattern-level rules, identifier rules, or SY01/SY05 when
configured disabled.  In particular never MI01. -/
def nonDupOk (config : List (String × RuleEntry)) (d : Diag) : Prop :=
  patOk config d ∨ idOk config d ∨
    ((d.rule = SY01 ∨ d.rule = SY05) ∧ gatedDisabledB config d.rule = true)

theorem attrOk_nonDup {config : List (String × RuleEntry)} {d : Diag}
    (h : attrOk config d) : nonDupOk config d := by
  rcases h with h | ⟨h1, h2⟩
  · exact Or.inl h
  · exact Or.inr (Or.inr ⟨Or.inr h1, by rw [h1]; exact h2⟩)

/-- The value-and-attributes tail shared by `visit_Message` and `visit_Term`. -/
theorem visit_children_adds {ctx : Ctx} {st st' : St} {id : Identifier}
    {value : Option FPattern} {attrs : List FAttribute}
    (h : ((visit_Identifier ctx st id).bind fun st2 =>
      (match value with
       | some p => visitPattern ctx st2 p
       | none => some st2).bind fun st3 =>
        visitAttributes ctx st3 attrs) = some st') :
    AddsOnly st st' (nonDupOk ctx.config) := by
  obtain ⟨st2, h2, h⟩ := Option.bind_eq_some.mp h
  obtain ⟨st3, h3, h4⟩ := Option.bind_eq_some.mp h
  have a1 : AddsOnly st st2 (nonDupOk ctx.config) :=
    (visit_Identifier_adds h2).relax (fun d hd => Or.inr (Or.inl hd))
  have a2 : AddsOnly st2 st3 (nonDupOk ctx.config) := by
    cases value with
    | none =>
      simp only [Option.some.injEq] at h3
      subst h3
      exact AddsOnly.unchanged st2 _
    | some p =>
      exact (visitPattern_adds p h3).relax (fun d hd => Or.inl hd)
  have a3 : AddsOnly st3 st' (nonDupOk ctx.config) :=
    (visitAttributes_adds h4).relax (fun d hd => attrOk_nonDup hd)
  exact (a1.comp a2).comp a3

theorem visit_Term_adds {ctx : Ctx} {st st' : St} {span : Span} {id : Identifier}
    {value : FPattern} {attrs : List FAttribute}
    (h : visit_Term ctx st span id value attrs = some st') :
    AddsOnly st st' (nonDupOk ctx.config) := by
  unfold visit_Term at h
  obtain ⟨st1, h1, h2⟩ := Option.bind_eq_some.mp h
  have a1 : AddsOnly { st with can_have_group_comment := true } st1
      (nonDupOk ctx.config) := by
    cases hb : gatedDisabledB ctx.config SY01 with
    | true =>
      rw [hb] at h1
      simp only [if_pos] at h1
      exact (add_error_adds h1).relax
        (fun d hd => Or.inr (Or.inr ⟨Or.inl hd.1, by rw [hd.1]; exact hb⟩))
    | false =>
      rw [hb] at h1
      simp only [Bool.false_eq_true, reduceIte, Option.some.injEq] at h1
      subst h1
      exact AddsOnly.unchanged _ _
  obtain ⟨st2, h2a, h2b⟩ := Option.bind_eq_some.mp h2
  obtain ⟨st3, h3a, h3b⟩ := Option.bind_eq_some.mp h2b
  have b1 : AddsOnly st1 st2 (nonDupOk ctx.config) :=
    (visit_Identifier_adds h2a).relax (fun d hd => Or.inr (Or.inl hd))
  have b2 : AddsOnly st2 st3 (nonDupOk ctx.config) :=
    (visitPattern_adds value h3a).relax (fun d hd => Or.inl hd)
  have b3 : AddsOnly st3 st' (nonDupOk ctx.config) :=
    (visitAttributes_adds h3b).relax (fun d hd => attrOk_nonDup hd)
  exact (((a1.comp b1).comp b2).comp b3).cast_left rfl rfl

/-- What `visit_Message` does: when the identifier was already recorded it
reports MI01 (with that identifier's message) and leaves `ids` unchanged;
otherwise it appends the identifier to `ids` and reports no MI01.  Either way
every further diagnostic of the message's subtree satisfies `nonDupOk`. -/
theorem visit_Message_shape {ctx : Ctx} {st st' : St} {span : Span} {id : Identifier}
    {value : Option FPattern} {attrs : List FAttribute}
    (h : visit_Message ctx st span id value attrs = some st') :
    (id.name ∈ st.ids →
      st'.ids = st.ids ∧
      ∃ l c new,
        st'.results = st.results ++ (⟨ctx.path, l, c, MI01, mi01msg id.name⟩ :: new) ∧
        ∀ d ∈ new, nonDupOk ctx.config d) ∧
    (id.name ∉ st.ids →
      st'.ids = st.ids ++ [id.name] ∧
      ∃ new, st'.results = st.results ++ new ∧ ∀ d ∈ new, nonDupOk ctx.config d) := by
  unfold visit_Message at h
  obtain ⟨st1, h1, h2⟩ := Option.bind_eq_some.mp h
  have tail := visit_children_adds h2
  obtain ⟨hids2, new2, hres2, hnew2⟩ := tail
  cases hb : st.ids.contains id.name with
  | true =>
    have hmem : id.name ∈ st.ids := List.mem_of_elem_eq_true hb
    rw [hb] at h1
    simp only [if_pos] at h1
    obtain ⟨hids1, _, _, l, c, hres1⟩ := add_error_shape h1
    constructor
    · intro _
      refine ⟨by rw [hids2, hids1], l, c, new2, ?_, hnew2⟩
      rw [hres2, hres1]
      simp
    · intro hnot
      exact absurd hmem hnot
  | false =>
    have hmem : id.name ∉ st.ids := by
      intro hmemx
      have hc : st.ids.contains id.name = true := List.elem_eq_true_of_mem hmemx
      rw [hb] at hc
      exact absurd hc (by simp)
    rw [hb] at h1
    simp only [Bool.false_eq_true, reduceIte, Option.some.injEq] at h1
    constructor
    · intro hmemx
      exact absurd hmemx hmem
    · intro _
      subst h1
      exact ⟨by simpa using hids2, new2, by simpa using hres2, hnew2⟩

/-- `visit_ResourceComment` leaves `ids` untouched and adds at most one
diagnostic, which is RC01, RC02 or RC03. -/
theorem visit_ResourceComment_shape {ctx : Ctx} {st st' : St} {span : Span}
    (h : visit_ResourceComment ctx st span = some st') :
    st'.ids = st.ids ∧
    ∃ new, st'.results = st.results ++ new ∧ new.length ≤ 1 ∧
      ∀ d ∈ new, d.rule = RC01 ∨ d.rule = RC02 ∨ d.rule = RC03 := by
  unfold visit_ResourceComment at h
  cases hf : st.node_can_be_resource_comment with
  | false =>
    rw [hf] at h
    simp only [Bool.not_false, if_pos] at h
    obtain ⟨hids, _, _, l, c, hres⟩ := add_error_shape h
    exact ⟨hids, [⟨ctx.path, l, c, RC01, rc01msg⟩], hres, by simp, by simp⟩
  | true =>
    rw [hf] at h
    simp only [Bool.not_true, Bool.false_eq_true, reduceIte] at h
    cases hA : get_newlines_count_after span ctx.contents with
    | none => rw [hA] at h; exact absurd h (by simp)
    | some lines_after =>
      cases hB : get_newlines_count_before span ctx.contents with
      | none => rw [hA, hB] at h; exact absurd h (by simp)
      | some lines_before =>
        rw [hA, hB] at h
        dsimp only at h
        by_cases hEnd : (span.stop : Int) = (ctx.contents.length : Int) - 1
        · rw [if_pos hEnd] at h
          simp only [Option.some.injEq] at h
          subst h
          exact ⟨rfl, [], by simp, by simp, by simp⟩
        · rw [if_neg hEnd] at h
          by_cases h2A : lines_after ≠ 2
          · rw [if_pos h2A] at h
            obtain ⟨hids, _, _, l, c, hres⟩ := add_error_shape h
            exact ⟨hids, [⟨ctx.path, l, c, RC02, rc02msg⟩], hres, by simp, by simp⟩
          · rw [if_neg h2A] at h
            by_cases h2B : lines_before ≠ 2
            · rw [if_pos h2B] at h
              obtain ⟨hids, _, _, l, c, hres⟩ := add_error_shape h
              exact ⟨hids, [⟨ctx.path, l, c, RC03, rc03msg⟩], hres, by simp, by simp⟩
            · rw [if_neg h2B] at h
              simp only [Option.some.injEq] at h
              subst h
              exact ⟨rfl, [], by simp, by simp, by simp⟩

/-- `visit_GroupComment` leaves `ids` untouched and adds at most one
diagnostic, which is GC01, GC02, GC03 or GC04. -/
theorem visit_GroupComment_shape {ctx : Ctx} {st st' : St} {span : Span}
    {content : String} (h : visit_GroupComment ctx st span content = some st') :
    st'.ids = st.ids ∧
    ∃ new, st'.results = st.results ++ new ∧ new.length ≤ 1 ∧
      ∀ d ∈ new, d.rule = GC01 ∨ d.rule = GC02 ∨ d.rule = GC03 ∨ d.rule = GC04 := by
  unfold visit_GroupComment at h
  cases hf : st.can_have_group_comment with
  | false =>
    rw [hf] at h
    simp only [Bool.not_false, if_pos] at h
    obtain ⟨hids, _, _, l, c, hres⟩ := add_error_shape h
    exact ⟨hids, [⟨ctx.path, l, c, GC04, gc04msg⟩], hres, by simp, by simp⟩
  | true =>
    rw [hf] at h
    simp only [Bool.not_true, Bool.false_eq_true, reduceIte] at h
    cases hA : get_newlines_count_after span ctx.contents with
    | none => rw [hA] at h; exact absurd h (by simp)
    | some lines_after =>
      cases hB : get_newlines_count_before span ctx.contents with
      | none => rw [hA, hB] at h; exact absurd h (by simp)
      | some lines_before =>
        rw [hA, hB] at h
        dsimp only at h
        by_cases hEnd : (span.stop : Int) = (ctx.contents.length : Int) - 1
        · rw [if_pos hEnd] at h
          by_cases hEmpty : content = ""
          · rw [if_pos hEmpty] at h
            simp only [Option.some.injEq] at h
            subst h
            exact ⟨rfl, [], by simp, by simp, by simp⟩
          · rw [if_neg hEmpty] at h
            obtain ⟨hids, _, _, l, c, hres⟩ := add_error_shape h
            exact ⟨hids, [⟨ctx.path, l, c, GC01, gc01msg⟩], hres, by simp, by simp⟩
        · rw [if_neg hEnd] at h
          by_cases h2A : lines_after ≠ 2
          · rw [if_pos h2A] at h
            obtain ⟨hids, _, _, l, c, hres⟩ := add_error_shape h
            exact ⟨hids, [⟨ctx.path, l, c, GC02, gc02msg⟩], hres, by simp, by simp⟩
          · rw [if_neg h2A] at h
            by_cases h2B : lines_before ≠ 2
            · rw [if_pos h2B] at h
              obtain ⟨hids, _, _, l, c, hres⟩ := add_error_shape h
              exact ⟨hids, [⟨ctx.path, l, c, GC03, gc03msg⟩], hres, by simp, by simp⟩
            · rw [if_neg h2B] at h
              simp only [Option.some.injEq] at h
              subst h
              exact ⟨rfl, [], by simp, by simp, by simp⟩

/-- Any diagnostic a top-level entry visit can produce. -/
def entryOk (config : List (String × RuleEntry)) (d : Diag) : Prop :=
  nonDupOk config d ∨ d.rule = MI01 ∨
    d.rule = RC01 ∨ d.rule = RC02 ∨ d.rule = RC03 ∨
    d.rule = GC01 ∨ d.rule = GC02 ∨ d.rule = GC03 ∨ d.rule = GC04

theorem visitEntry_results {ctx : Ctx} {st st' : St} {e : Entry}
    (h : visitEntry ctx st e = some st') :
    ResultsOnly st st' (entryOk ctx.config) := by
  cases e with
  | Message span id value attributes =>
    simp only [visitEntry] at h
    have shape := visit_Message_shape h
    by_cases hm : id.name ∈ st.ids
    · obtain ⟨_, l, c, new, hres, hnew⟩ := shape.1 hm
      refine ⟨⟨ctx.path, l, c, MI01, mi01msg id.name⟩ :: new, hres, ?_⟩
      intro d hd
      rcases List.mem_cons.mp hd with h | h
      · subst h
        exact Or.inr (Or.inl rfl)
      · exact Or.inl (hnew d h)
    · obtain ⟨_, new, hres, hnew⟩ := shape.2 hm
      exact ⟨new, hres, fun d hd => Or.inl (hnew d hd)⟩
  | Term span id value attributes =>
    simp only [visitEntry] at h
    exact (visit_Term_adds h).2.weaken (fun d hd => Or.inl hd)
  | Comment span content =>
    simp only [visitEntry, Option.some.injEq] at h
    subst h
    exact ResultsOnly.noop st _
  | GroupComment span content =>
    simp only [visitEntry] at h
    obtain ⟨_, new, hres, _, hnew⟩ := visit_GroupComment_shape h
    refine ⟨new, hres, fun d hd => ?_⟩
    rcases hnew d hd with h | h | h | h
    · exact Or.inr (Or.inr (Or.inr (Or.inr (Or.inr (Or.inl h)))))
    · exact Or.inr (Or.inr (Or.inr (Or.inr (Or.inr (Or.inr (Or.inl h))))))
    · exact Or.inr (Or.inr (Or.inr (Or.inr (Or.inr (Or.inr (Or.inr (Or.inl h)))))))
    · exact Or.inr (Or.inr (Or.inr (Or.inr (Or.inr (Or.inr (Or.inr (Or.inr h)))))))
  | ResourceComment span content =>
    simp only [visitEntry] at h
    obtain ⟨_, new, hres, _, hnew⟩ := visit_ResourceComment_shape h
    refine ⟨new, hres, fun d hd => ?_⟩
    rcases hnew d hd with h | h | h
    · exact Or.inr (Or.inr (Or.inl h))
    · exact Or.inr (Or.inr (Or.inr (Or.inl h)))
    · exact Or.inr (Or.inr (Or.inr (Or.inr (Or.inl h))))

theorem visitEntries_results {ctx : Ctx} :
    ∀ {es : List Entry} {st st' : St},
    visitEntries ctx st es = some st' → ResultsOnly st st' (entryOk ctx.config) := by
  intro es
  induction es with
  | nil =>
    intro st st' h
    simp only [visitEntries, Option.some.injEq] at h
    subst h
    exact ResultsOnly.noop st _
  | cons e es ih =>
    intro st st' h
    simp only [visitEntries] at h
    cases h1 : visitEntry ctx st e with
    | none => rw [h1] at h; exact absurd h (by simp)
    | some st2 =>
      rw [h1] at h
      exact (visitEntry_results h1).chain (ih h)

/-- The thirteen rules that are not controlled by the configuration. -/
def uncondRules : List String :=
  [MI01, TE01, TE02, TE03, TE04, TE05, RC01, RC02, RC03, GC01, GC02, GC03, GC04]

theorem entryOk_empty {d : Diag} (h : entryOk [] d) : d.rule ∈ uncondRules := by
  rcases h with h | h
  · rcases h with h | h | h
    · rcases h with h | ⟨hsy, hgate⟩
      · rcases h with h | h | h | h | h <;> simp [uncondRules, h]
      · rw [show gatedDisabledB [] d.rule = false from rfl] at hgate
        exact absurd hgate (by simp)
    · obtain ⟨_, hgate⟩ := h
      rw [show gatedEnabledB [] d.rule = false from rfl] at hgate
      exact absurd hgate (by simp)
    · obtain ⟨_, hgate⟩ := h
      rw [show gatedDisabledB [] d.rule = false from rfl] at hgate
      exact absurd hgate (by simp)
  · rcases h with h | h | h | h | h | h | h | h <;> simp [uncondRules, h]

/-! ## Counting MI01 diagnostics (for the duplicate-identifier claims) -/

/-- The MI01 diagnostic for identifier `x` (recognised by rule and message;
the message embeds the identifier). -/
def miP (x : String) (d : Diag) : Bool :=
  d.rule == MI01 && d.msg == mi01msg x

/-- How many MI01 diagnostics for identifier `x` a result list holds. -/
def miCount (x : String) (l : List Diag) : Nat := l.countP (miP x)

/-- Whether a top-level entry is a `Message` whose identifier is `x`. -/
def isMessageNamed (x : String) : Entry → Bool
  | .Message _ id _ _ => id.name == x
  | _ => false

/-- How many `Message` entries of a body are named `x`. -/
def msgCount (x : String) (es : List Entry) : Nat := es.countP (isMessageNamed x)

theorem mi01msg_inj {a b : String} (h : mi01msg a = mi01msg b) : a = b := by
  unfold mi01msg at h
  have h2 := congrArg String.data h
  simp only [String.data_append] at h2
  exact String.ext (List.append_cancel_left (List.append_cancel_right h2))

theorem miCount_append (x : String) (l₁ l₂ : List Diag) :
    miCount x (l₁ ++ l₂) = miCount x l₁ + miCount x l₂ :=
  List.countP_append _ _ _

theorem miCount_eq_zero {x : String} {new : List Diag}
    (hnew : ∀ d ∈ new, miP x d = false) : miCount x new = 0 := by
  unfold miCount
  rw [List.countP_eq_zero]
  intro d hd
  simp [hnew d hd]

theorem rule_not_mi {x : String} {d : Diag} {r : String} (hr : d.rule = r)
    (hne : (r == MI01) = false) : miP x d = false := by
  unfold miP
  rw [hr, hne]
  simp

theorem nonDupOk_not_mi {config : List (String × RuleEntry)} {x : String}
    {d : Diag} (h : nonDupOk config d) : miP x d = false := by
  rcases h with h | h | h
  · rcases h with h | ⟨h, _⟩
    · rcases h with h | h | h | h | h <;> exact rule_not_mi h (by decide)
    · rcases h with h | h | h <;> exact rule_not_mi h (by decide)
  · rcases h.1 with h1 | h1 <;> exact rule_not_mi h1 (by decide)
  · rcases h.1 with h1 | h1 <;> exact rule_not_mi h1 (by decide)

/-- The effect of one entry visit on the MI01 count for `x`, on membership of
`x` in the seen-identifier list, and on its freedom from duplicates. -/
theorem visitEntry_mi (x : String) {ctx : Ctx} {st st' : St} {e : Entry}
    (h : visitEntry ctx st e = some st') :
    miCount x st'.results =
      miCount x st.results +
        (if isMessageNamed x e = true ∧ x ∈ st.ids then 1 else 0) ∧
    (x ∈ st'.ids ↔ (x ∈ st.ids ∨ isMessageNamed x e = true)) ∧
    (st.ids.Nodup → st'.ids.Nodup) := by
  cases e with
  | Message span id value attributes =>
    simp only [visitEntry] at h
    have shape := visit_Message_shape h
    have hnamed : isMessageNamed x (Entry.Message span id value attributes) =
        (id.name == x) := rfl
    by_cases hm : id.name ∈ st.ids
    · obtain ⟨hids, l, c, new, hres, hnew⟩ := shape.1 hm
      refine ⟨?_, ?_, ?_⟩
      · rw [hres, miCount_append]
        have hrest : miCount x new = 0 :=
          miCount_eq_zero (fun d hd => nonDupOk_not_mi (hnew d hd))
        by_cases hxy : id.name = x
        · subst hxy
          rw [if_pos ⟨by simp [hnamed], hm⟩]
          have hone : miP id.name ⟨ctx.path, l, c, MI01, mi01msg id.name⟩ = true := by
            simp [miP]
          have hcons :
              miCount id.name (⟨ctx.path, l, c, MI01, mi01msg id.name⟩ :: new) = 1 := by
            unfold miCount
            rw [List.countP_cons, hone]
            have h0 : List.countP (miP id.name) new = 0 := hrest
            simp [h0]
          rw [hcons]
        · have hzero : miP x ⟨ctx.path, l, c, MI01, mi01msg id.name⟩ = false := by
            simp only [miP]
            have hmsg : (mi01msg id.name == mi01msg x) = false := by
              rw [beq_eq_false_iff_ne]
              intro hc
              exact hxy (mi01msg_inj hc)
            simp [hmsg]
          rw [if_neg (by rintro ⟨hn, _⟩; rw [hnamed] at hn; exact hxy (by simpa using hn))]
          have hcons :
              miCount x (⟨ctx.path, l, c, MI01, mi01msg id.name⟩ :: new) = 0 := by
            unfold miCount
            rw [List.countP_cons, hzero]
            have h0 : List.countP (miP x) new = 0 := hrest
            simp [h0]
          rw [hcons]
      · rw [hids]
        constructor
        · exact fun hx => Or.inl hx
        · rintro (hx | hx)
          · exact hx
          · rw [hnamed] at hx
            have : id.name = x := by simpa using hx
            exact this ▸ hm
      · intro hnd
        rw [hids]
        exact hnd
    · obtain ⟨hids, new, hres, hnew⟩ := shape.2 hm
      refine ⟨?_, ?_, ?_⟩
      · rw [hres, miCount_append]
        have hrest : miCount x new = 0 :=
          miCount_eq_zero (fun d hd => nonDupOk_not_mi (hnew d hd))
        rw [if_neg ?_]
        · omega
        · rintro ⟨hn, hxmem⟩
          rw [hnamed] at hn
          have : id.name = x := by simpa using hn
          exact hm (this ▸ hxmem)
      · rw [hids]
        simp only [List.mem_append, List.mem_singleton, hnamed]
        constructor
        · rintro (hx | hx)
          · exact Or.inl hx
          · exact Or.inr (by simp [hx])
        · rintro (hx | hx)
          · exact Or.inl hx
          · have hx2 : id.name = x := by simpa using hx
            exact Or.inr hx2.symm
      · intro hnd
        rw [hids, List.nodup_append]
        refine ⟨hnd, List.nodup_singleton _, ?_⟩
        intro a ha hb
        rw [List.mem_singleton] at hb
        exact hm (hb ▸ ha)
  | Term span id value attributes =>
    simp only [visitEntry] at h
    obtain ⟨hids, new, hres, hnew⟩ := visit_Term_adds h
    refine ⟨?_, by rw [hids]; simp [isMessageNamed], by intro hnd; rw [hids]; exact hnd⟩
    rw [hres, miCount_append,
      miCount_eq_zero (fun d hd => nonDupOk_not_mi (hnew d hd))]
    simp [isMessageNamed]
  | Comment span content =>
    simp only [visitEntry, Option.some.injEq] at h
    subst h
    exact ⟨by simp [isMessageNamed], by simp [isMessageNamed], fun hnd => hnd⟩
  | GroupComment span content =>
    simp only [visitEntry] at h
    obtain ⟨hids, new, hres, _, hnew⟩ := visit_GroupComment_shape h
    refine ⟨?_, by rw [hids]; simp [isMessageNamed], by intro hnd; rw [hids]; exact hnd⟩
    have hzero : miCount x new = 0 := miCount_eq_zero (fun d hd => by
      rcases hnew d hd with h1 | h1 | h1 | h1 <;> exact rule_not_mi h1 (by decide))
    rw [hres, miCount_append, hzero]
    simp [isMessageNamed]
  | ResourceComment span content =>
    simp only [visitEntry] at h
    obtain ⟨hids, new, hres, _, hnew⟩ := visit_ResourceComment_shape h
    refine ⟨?_, by rw [hids]; simp [isMessageNamed], by intro hnd; rw [hids]; exact hnd⟩
    have hzero : miCount x new = 0 := miCount_eq_zero (fun d hd => by
      rcases hnew d hd with h1 | h1 | h1 <;> exact rule_not_mi h1 (by decide))
    rw [hres, miCount_append, hzero]
    simp [isMessageNamed]

/-- The duplicate-identifier bookkeeping over a whole entry list: starting
from a state that has not seen `x`, `n` messages named `x` produce exactly
`n - 1` MI01 diagnostics for `x` (from a state that has seen it, `n`); `x`
ends up recorded iff it was recorded or occurs; a duplicate-free
seen-identifier list stays duplicate-free. -/
theorem visitEntries_mi (x : String) :
    ∀ (es : List Entry) {ctx : Ctx} {st st' : St},
    visitEntries ctx st es = some st' →
    miCount x st'.results =
      miCount x st.results +
        (if x ∈ st.ids then msgCount x es else msgCount x es - 1) ∧
    (x ∈ st'.ids ↔ (x ∈ st.ids ∨ 1 ≤ msgCount x es)) ∧
    (st.ids.Nodup → st'.ids.Nodup) := by
  intro es
  induction es with
  | nil =>
    intro ctx st st' h
    simp only [visitEntries, Option.some.injEq] at h
    subst h
    simp [msgCount]
  | cons e es ih =>
    intro ctx st st' h
    simp only [visitEntries] at h
    cases h1 : visitEntry ctx st e with
    | none => rw [h1] at h; exact absurd h (by simp)
    | some st2 =>
      rw [h1] at h
      obtain ⟨hc1, hm1, hn1⟩ := visitEntry_mi x h1
      obtain ⟨hc2, hm2, hn2⟩ := ih h
      have hcount : msgCount x (e :: es) =
          msgCount x es + (if isMessageNamed x e = true then 1 else 0) := by
        unfold msgCount
        rw [List.countP_cons]
      refine ⟨?_, ?_, fun hnd => hn2 (hn1 hnd)⟩
      · rw [hc2, hc1, hcount]
        by_cases hmem : x ∈ st.ids
        · rw [if_pos hmem]
          have hmem2 : x ∈ st2.ids := hm1.mpr (Or.inl hmem)
          rw [if_pos hmem2]
          by_cases hnm : isMessageNamed x e = true
          · rw [if_pos ⟨hnm, hmem⟩, if_pos hnm]
            omega
          · rw [if_neg (fun hh => hnm hh.1), if_neg hnm]
            omega
        · rw [if_neg hmem,
            if_neg (fun hh => hmem hh.2)]
          by_cases hnm : isMessageNamed x e = true
          · have hmem2 : x ∈ st2.ids := hm1.mpr (Or.inr hnm)
            rw [if_pos hmem2, if_pos hnm]
            omega
          · have hmem2 : x ∉ st2.ids := by
              intro hcontra
              rcases hm1.mp hcontra with hh | hh
              · exact hmem hh
              · exact hnm hh
            rw [if_neg hmem2, if_neg hnm]
            omega
      · rw [hm2, hm1, hcount]
        by_cases hnm : isMessageNamed x e = true
        · rw [if_pos hnm]
          constructor
          · intro _
            exact Or.inr (by omega)
          · intro _
            exact Or.inl (Or.inr hnm)
        · rw [if_neg hnm]
          constructor
          · rintro ((hh | hh) | hh)
            · exact Or.inl hh
            · exact absurd hh hnm
            · exact Or.inr (by omega)
          · rintro (hh | hh)
            · exact Or.inl (Or.inl hh)
            · exact Or.inr (by omega)

/-! ## Per-claim fixtures and theorems -/

/-- Whether an expression is one of the four reference node kinds. -/
def isReference : FExpression → Bool
  | .MessageReference _ _ => true
  | .TermReference _ _ => true
  | .FunctionReference _ _ => true
  | .VariableReference _ _ => true
  | _ => false

theorem patOk_not_id {config : List (String × RuleEntry)} {d : Diag}
    (h : patOk config d) : d.rule ≠ ID01 ∧ d.rule ≠ ID02 := by
  rcases h with h | ⟨h, _⟩
  · rcases h with h | h | h | h | h <;>
      exact ⟨by rw [h]; decide, by rw [h]; decide⟩
  · rcases h with h | h | h <;>
      exact ⟨by rw [h]; decide, by rw [h]; decide⟩

/-- The source of Claim C1's position-resolution example. -/
def c1src : String := "a\nbb\nccc"

/-- Claim C1: position resolution on the source `"a\nbb\nccc"`.  The first two
examples of the claim hold — offset 0 resolves to column 1 of line 1 and
offset 2 to column 1 of line 2 (`span_to_line_and_col` returns `(col, line)`)
— but offset 5, the start of `"ccc"`, makes the Python code evaluate
`self.offsets_and_lines[2]` in a two-element table: an `IndexError`
(modelled `none`), not `(line 3, col 1)` as the claim states.  The offsets
table built from this source is `[(1, 1), (4, 2)]`, with no entry for a line
that no newline terminates. -/
theorem c1_span_resolution :
    span_to_line_and_col (get_offsets_and_lines c1src.toList) 0 = some (1, 1) ∧
    span_to_line_and_col (get_offsets_and_lines c1src.toList) 2 = some (1, 2) ∧
    span_to_line_and_col (get_offsets_and_lines c1src.toList) 5 = none :=
  ⟨by decide, by decide, by decide⟩

/-- Contents of the C2 counterexample file. -/
def c2contents : String := "k = Loading...\n"

/-- Context of the C2 counterexample: the configuration is empty. -/
def c2ctx : Ctx :=
  ⟨"f.ftl", "root", [], c2contents.toList,
   get_offsets_and_lines c2contents.toList⟩

/-- One message whose value is the text `Loading...`. -/
def c2res : Resource :=
  ⟨⟨0, 15⟩,
   [.Message ⟨0, 14⟩ ⟨⟨0, 1⟩, "k"⟩
      (some (.mk ⟨4, 14⟩ (.cons (.TextElement ⟨4, 14⟩ "Loading...") .nil))) []]⟩

/-- Claim C2 counterexample: linting a file under the empty configuration is
claimed to produce zero diagnostics, but this one-message file produces a
TE05 diagnostic — the text-quality checks are not configuration-gated. -/
theorem c2_counterexample :
    (lintResource c2ctx c2res).map (fun l => l.map Diag.rule) = some [TE05] := by
  decide

/-- Claim C2, amended: under an empty configuration the configuration-gated
checks (ID01, ID02, SY01–SY05) can produce nothing, but the thirteen
unconditional rules (MI01, TE01–TE05, RC01–RC03, GC01–GC04) remain live: every
diagnostic produced under an empty configuration carries one of those
thirteen rules. -/
theorem c2_empty_config (ctx : Ctx) (r : Resource) (ds : List Diag)
    (hcfg : ctx.config = []) (h : lintResource ctx r = some ds) :
    ∀ d ∈ ds, d.rule ∈ uncondRules := by
  unfold lintResource at h
  cases hv : visitEntries ctx initSt r.body with
  | none => rw [hv] at h; exact absurd h (by simp)
  | some st' =>
    rw [hv] at h
    simp only [Option.map_some', Option.some.injEq] at h
    subst h
    obtain ⟨new, hres, hnew⟩ := visitEntries_results hv
    intro d hd
    have hres2 : st'.results = new := by
      rw [hres]
      simp [initSt]
    rw [hres2] at hd
    have := hnew d hd
    rw [hcfg] at this
    exact entryOk_empty this

/-- A C2 witness file: the same shape as the counterexample file. -/
def c2wcontents : String := "m = a...\n"

def c2wctx : Ctx :=
  ⟨"w.ftl", "root", [], c2wcontents.toList,
   get_offsets_and_lines c2wcontents.toList⟩

def c2wres : Resource :=
  ⟨⟨0, 9⟩,
   [.Message ⟨0, 8⟩ ⟨⟨0, 1⟩, "m"⟩
      (some (.mk ⟨4, 8⟩ (.cons (.TextElement ⟨4, 8⟩ "a...") .nil))) []]⟩

def c2wds : List Diag := [⟨"w.ftl", 1, 5, TE05, te05msg⟩]

def c2wdiag : Diag := ⟨"w.ftl", 1, 5, TE05, te05msg⟩

theorem c2_witness : c2wdiag.rule ∈ uncondRules :=
  c2_empty_config c2wctx c2wres c2wds rfl (by decide) c2wdiag (by decide)

/-- A configuration enabling ID01 with empty exclusion lists. -/
def cfgID01 : List (String × RuleEntry) := [(ID01, ⟨true, false, 0, [], []⟩)]

/-- Contents of the C3 counterexample file: a message with an attribute whose
identifier violates the ID01 pattern. -/
def c3contents : String := "msg-a = x\n    .BAD = y\n"

def c3ctx : Ctx :=
  ⟨"f.ftl", "root", cfgID01, c3contents.toList,
   get_offsets_and_lines c3contents.toList⟩

def c3res : Resource :=
  ⟨⟨0, 23⟩,
   [.Message ⟨0, 22⟩ ⟨⟨0, 5⟩, "msg-a"⟩
      (some (.mk ⟨8, 9⟩ (.cons (.TextElement ⟨8, 9⟩ "x") .nil)))
      [⟨⟨14, 22⟩, ⟨⟨15, 18⟩, "BAD"⟩,
        .mk ⟨21, 22⟩ (.cons (.TextElement ⟨21, 22⟩ "y") .nil)⟩]]⟩

/-- Claim C3 counterexample: ID01 is enabled and the attribute's identifier
`BAD` violates `[a-z0-9-]+`, yet linting reports nothing — `visit_Attribute`
only descends into the attribute's value, never its identifier, so ID01/ID02
do not run on Attribute declarations as the claim states. -/
theorem c3_counterexample : lintResource c3ctx c3res = some [] := by decide

/-- Fixtures for the positive half of C3: a message and a term whose own
identifiers violate ID01. -/
def c3mcontents : String := "BAD = x\n"

def c3mctx : Ctx :=
  ⟨"f.ftl", "root", cfgID01, c3mcontents.toList,
   get_offsets_and_lines c3mcontents.toList⟩

def c3mres : Resource :=
  ⟨⟨0, 8⟩,
   [.Message ⟨0, 7⟩ ⟨⟨0, 3⟩, "BAD"⟩
      (some (.mk ⟨6, 7⟩ (.cons (.TextElement ⟨6, 7⟩ "x") .nil))) []]⟩

def c3tcontents : String := "-BAD = x\n"

def c3tctx : Ctx :=
  ⟨"f.ftl", "root", cfgID01, c3tcontents.toList,
   get_offsets_and_lines c3tcontents.toList⟩

def c3tres : Resource :=
  ⟨⟨0, 9⟩,
   [.Term ⟨0, 8⟩ ⟨⟨1, 4⟩, "BAD"⟩
      (.mk ⟨7, 8⟩ (.cons (.TextElement ⟨7, 8⟩ "x") .nil)) []]⟩

/-- The number of ID01/ID02 diagnostics in a result list. -/
def idCount (l : List Diag) : Nat :=
  l.countP (fun d => d.rule == ID01 || d.rule == ID02)

theorem idCount_append_eq {l new : List Diag}
    (hnew : ∀ d ∈ new, d.rule ≠ ID01 ∧ d.rule ≠ ID02) :
    idCount (l ++ new) = idCount l := by
  unfold idCount
  rw [List.countP_append]
  have h0 : List.countP (fun d => d.rule == ID01 || d.rule == ID02) new = 0 := by
    rw [List.countP_eq_zero]
    intro d hd
    obtain ⟨h1, h2⟩ := hnew d hd
    simp [beq_eq_false_iff_ne.mpr h1, beq_eq_false_iff_ne.mpr h2]
  omega

/-- Claim C3, amended: ID01/ID02 run on the identifier of every Message and
every Term (the two concrete runs each produce the ID01 diagnostic), but not
on Attribute identifiers — visiting an attribute never changes the number of
ID01/ID02 diagnostics, whatever its identifier — and never on the
identifiers inside reference nodes, whose visits likewise add no
ID01/ID02. -/
theorem c3_identifier_scope :
    (∀ (ctx : Ctx) (st st' : St) (a : FAttribute),
      visit_Attribute ctx st a = some st' →
      idCount st'.results = idCount st.results) ∧
    (∀ (ctx : Ctx) (st st' : St) (e : FExpression), isReference e = true →
      visitExpression ctx st e = some st' →
      idCount st'.results = idCount st.results) ∧
    lintResource c3mctx c3mres = some [⟨"f.ftl", 1, 1, ID01, id01msg⟩] ∧
    lintResource c3tctx c3tres = some [⟨"f.ftl", 1, 2, ID01, id01msg⟩] := by
  refine ⟨?_, ?_, by decide, by decide⟩
  · intro ctx st st' a h
    obtain ⟨_, new, hres, hnew⟩ := visit_Attribute_adds h
    rw [hres]
    refine idCount_append_eq (fun d hd => ?_)
    rcases hnew d hd with h1 | ⟨h1, _⟩
    · exact patOk_not_id h1
    · exact ⟨by rw [h1]; decide, by rw [h1]; decide⟩
  · intro ctx st st' e he h
    obtain ⟨_, new, hres, hnew⟩ := visitExpression_adds e h
    rw [hres]
    exact idCount_append_eq (fun d hd => patOk_not_id (hnew d hd))

/-- A C3 witness attribute whose identifier is ID01-violating and whose value
triggers a TE05: visiting it adds a diagnostic, but no ID01/ID02. -/
def c3wcontents : String := "m = x...
"

def c3wattr : FAttribute :=
  ⟨⟨0, 8⟩, ⟨⟨1, 4⟩, "X_Y"⟩, .mk ⟨4, 8⟩ (.cons (.TextElement ⟨4, 8⟩ "x...") .nil)⟩

def c3wctx : Ctx :=
  ⟨"w.ftl", "root", cfgID01, c3wcontents.toList,
   get_offsets_and_lines c3wcontents.toList⟩

def c3wst : St := ⟨[⟨"w.ftl", 1, 5, TE05, te05msg⟩], [], true, true⟩

theorem c3_witness : idCount c3wst.results = idCount initSt.results :=
  c3_identifier_scope.1 c3wctx initSt c3wst c3wattr (by decide)

/-- Contents of the C4 counterexample file: two terms with the same name. -/
def c4tcontents : String := "-foo = a\n-foo = b\n"

def c4tctx : Ctx :=
  ⟨"f.ftl", "root", [], c4tcontents.toList,
   get_offsets_and_lines c4tcontents.toList⟩

def c4tres : Resource :=
  ⟨⟨0, 18⟩,
   [.Term ⟨0, 8⟩ ⟨⟨1, 4⟩, "foo"⟩
      (.mk ⟨7, 8⟩ (.cons (.TextElement ⟨7, 8⟩ "a") .nil)) [],
    .Term ⟨9, 17⟩ ⟨⟨10, 13⟩, "foo"⟩
      (.mk ⟨16, 17⟩ (.cons (.TextElement ⟨16, 17⟩ "b") .nil)) []]⟩

/-- Claim C4 counterexample: two Term entries with the same identifier are
claimed to yield an MI01 diagnostic, but linting them yields no diagnostics
at all — `visit_Term` has no duplicate check and never touches the
seen-identifier list. -/
theorem c4_counterexample : lintResource c4tctx c4tres = some [] := by decide

/-- Contents of the C4 positive case: two messages both named `foo`. -/
def c4mcontents : String := "foo = a\nfoo = b\n"

def c4mctx : Ctx :=
  ⟨"f.ftl", "root", [], c4mcontents.toList,
   get_offsets_and_lines c4mcontents.toList⟩

def c4mres : Resource :=
  ⟨⟨0, 16⟩,
   [.Message ⟨0, 7⟩ ⟨⟨0, 3⟩, "foo"⟩
      (some (.mk ⟨6, 7⟩ (.cons (.TextElement ⟨6, 7⟩ "a") .nil))) [],
    .Message ⟨8, 15⟩ ⟨⟨8, 11⟩, "foo"⟩
      (some (.mk ⟨14, 15⟩ (.cons (.TextElement ⟨14, 15⟩ "b") .nil))) []]⟩

/-- The duplicated identifier of the C4 positive case. -/
def c4mname : String := "foo"

/-- The single diagnostic of the C4 positive case: MI01 at line 2, column 1 —
the second occurrence. -/
def c4mdiag : Diag := ⟨"f.ftl", 2, 1, MI01, mi01msg c4mname⟩

/-- Claim C4, amended: only Message entries take part in the duplicate check.
Visiting a Message whose identifier was already seen reports one MI01 for it
and leaves the seen list unchanged; an unseen identifier is recorded and no
MI01 is reported — so two Messages named `foo` yield exactly one MI01
diagnostic located at the second occurrence.  Term entries are never checked:
a Term visit leaves the seen-identifier list unchanged and produces no MI01,
and two Terms with the same identifier yield no MI01 at all. -/
theorem c4_duplicate_check :
    lintResource c4mctx c4mres = some [c4mdiag] ∧
    (∀ (ctx : Ctx) (st st' : St) (span : Span) (id : Identifier)
      (value : Option FPattern) (attrs : List FAttribute),
      visit_Message ctx st span id value attrs = some st' →
      (id.name ∈ st.ids → st'.ids = st.ids ∧
        miCount id.name st'.results = miCount id.name st.results + 1) ∧
      (id.name ∉ st.ids → st'.ids = st.ids ++ [id.name] ∧
        miCount id.name st'.results = miCount id.name st.results)) ∧
    (∀ (ctx : Ctx) (st st' : St) (span : Span) (id : Identifier)
      (value : FPattern) (attrs : List FAttribute),
      visit_Term ctx st span id value attrs = some st' →
      st'.ids = st.ids ∧ miCount id.name st'.results = miCount id.name st.results) := by
  refine ⟨by decide, ?_, ?_⟩
  · intro ctx st st' span id value attrs h
    have shape := visit_Message_shape h
    constructor
    · intro hm
      obtain ⟨hids, l, c, new, hres, hnew⟩ := shape.1 hm
      refine ⟨hids, ?_⟩
      rw [hres, miCount_append]
      have hone : miP id.name ⟨ctx.path, l, c, MI01, mi01msg id.name⟩ = true := by
        simp [miP]
      have hrest : List.countP (miP id.name) new = 0 :=
        miCount_eq_zero (fun d hd => nonDupOk_not_mi (hnew d hd))
      unfold miCount
      rw [List.countP_cons, hone, hrest]
      simp [miCount]
    · intro hm
      obtain ⟨hids, new, hres, hnew⟩ := shape.2 hm
      refine ⟨hids, ?_⟩
      rw [hres, miCount_append,
        miCount_eq_zero (fun d hd => nonDupOk_not_mi (hnew d hd))]
      omega
  · intro ctx st st' span id value attrs h
    obtain ⟨hids, new, hres, hnew⟩ := visit_Term_adds h
    refine ⟨hids, ?_⟩
    rw [hres, miCount_append,
      miCount_eq_zero (fun d hd => nonDupOk_not_mi (hnew d hd))]
    omega

/-- C4 witness fixtures: one term visited from the initial state. -/
def c4wctx : Ctx := ⟨"w.ftl", "root", [], [], []⟩

def c4wid : Identifier := ⟨⟨1, 4⟩, "bar"⟩

def c4wst : St := ⟨[], [], false, true⟩

theorem c4_witness :
    c4wst.ids = initSt.ids ∧
    miCount c4wid.name c4wst.results = miCount c4wid.name initSt.results :=
  c4_duplicate_check.2.2 c4wctx initSt c4wst ⟨0, 8⟩ c4wid (.mk ⟨7, 8⟩ .nil) [] rfl

/-- The C5 environment: no folder contains any file and no path exists. -/
def c5env : Env :=
  ⟨fun _ => [], fun _ => "", fun _ => false, fun _ => [],
   fun _ => ⟨⟨0, 0⟩, []⟩, "config.yml"⟩

def c5root : String := "/missing-root"

/-- Claim C5 counterexample: with a missing root folder (`os.walk` yields
nothing) the claim demands a non-zero exit, but the run finds no files,
collects no diagnostics and exits 0. -/
theorem c5_counterexample : main_exit c5env c5root none = 0 := by decide

/-- Claim C5, amended: the exit code is 0 exactly when `lint` ran to
completion with an empty diagnostic list and 1 when diagnostics exist or a
fatal error (an uncaught exception) occurred; but neither a missing root
folder nor a missing explicitly-given configuration file aborts the run — a
missing root folder produces an empty file list and exit code 0, and a
missing explicit configuration file only makes the run continue with the
empty configuration. -/
theorem c5_exit_codes :
    (∀ (env : Env) (root : String) (cfg : Option String),
      (main_exit env root cfg = 0 ↔ lint env root cfg = some []) ∧
      (main_exit env root cfg = 0 ∨ main_exit env root cfg = 1)) ∧
    (∀ (env : Env) (root : String) (cfg : Option String),
      env.walk root = [] → main_exit env root cfg = 0) ∧
    (∀ (env : Env) (root : String) (p : String),
      env.path_exists p = false →
      lint env root (some p) =
        lintFiles env root [] (get_file_list env root) []) := by
  refine ⟨?_, ?_, ?_⟩
  · intro env root cfg
    unfold main_exit
    cases hl : lint env root cfg with
    | none => simp
    | some results =>
      by_cases hres : results = []
      · subst hres
        simp
      · simp [hres]
  · intro env root cfg hwalk
    have hfiles : get_file_list env root = [] := by
      unfold get_file_list
      rw [hwalk]
      rfl
    unfold main_exit lint
    rw [hfiles]
    simp [lintFiles]
  · intro env root p hexists
    unfold lint
    simp [hexists]

/-- C5 witness: the missing-config clause applied to the concrete empty
environment. -/
def c5wcfg : String := "absent.yml"

theorem c5_witness :
    lint c5env c5root (some c5wcfg) =
      lintFiles c5env c5root [] (get_file_list c5env c5root) [] :=
  c5_exit_codes.2.2 c5env c5root c5wcfg rfl

/-- When the newline-counting scan fails: exactly when the character list
starts with a run of newlines immediately followed by a carriage return —
the only characters the Python loop examines before breaking. -/
theorem count_newlines_run_none_iff :
    ∀ l : List Char,
    count_newlines_run l = none ↔
      ∃ k, (∀ j, j < k → l.get? j = some '\n') ∧ l.get? k = some '\r' := by
  intro l
  induction l with
  | nil => simp [count_newlines_run]
  | cons c cs ih =>
    unfold count_newlines_run
    by_cases hc : c = '\r'
    · rw [if_pos hc]
      refine iff_of_true rfl ⟨0, fun j hj => absurd hj (Nat.not_lt_zero j), ?_⟩
      simp [hc]
    · rw [if_neg hc]
      by_cases hn : c = '\n'
      · have hb : (c != '\n') = false := by simp [hn]
        rw [hb]
        simp only [Bool.false_eq_true, reduceIte]
        rw [Option.map_eq_none', ih]
        constructor
        · rintro ⟨k, hj, hk⟩
          refine ⟨k + 1, ?_, by simpa using hk⟩
          intro j hjlt
          cases j with
          | zero => simp [hn]
          | succ j' => simpa using hj j' (by omega)
        · rintro ⟨k, hj, hk⟩
          cases k with
          | zero =>
            have habs : c = '\r' := by simpa using hk
            exact absurd habs hc
          | succ k' =>
            refine ⟨k', ?_, by simpa using hk⟩
            intro j hjlt
            simpa using hj (j + 1) (by omega)
      · have hb : (c != '\n') = true := by simp [hn]
        rw [hb]
        simp only [if_pos]
        constructor
        · intro habs
          exact absurd habs (by simp)
        · rintro ⟨k, hj, hk⟩
          cases k with
          | zero =>
            have habs : c = '\r' := by simpa using hk
            exact absurd habs hc
          | succ k' =>
            have habs : c = '\n' := by simpa using hj 0 (by omega)
            exact absurd habs hn

/-- Contents of the C6 counterexample file: a carriage return inside a
message value, no resource or group comments. -/
def c6contents : String := "k = a\rb\n"

def c6ctx : Ctx :=
  ⟨"f.ftl", "root", [], c6contents.toList,
   get_offsets_and_lines c6contents.toList⟩

def c6res : Resource :=
  ⟨⟨0, 8⟩,
   [.Message ⟨0, 7⟩ ⟨⟨0, 1⟩, "k"⟩
      (some (.mk ⟨4, 7⟩ (.cons (.TextElement ⟨4, 7⟩ "a\rb") .nil))) []]⟩

/-- Claim C6 counterexample: the source text contains a carriage return, yet
linting completes normally with no diagnostics — the CR assertions live only
in the newline counters, which run only while checking resource and group
comments. -/
theorem c6_counterexample : lintResource c6ctx c6res = some [] := by decide

/-- C6 fixtures for the amended claim: a resource comment directly followed
by a CR (fatal), and a message file with a CR far from any comment scan
(linted normally). -/
def c6bcontents : String := "### c\n\rx\n"

def c6bctx : Ctx :=
  ⟨"f.ftl", "root", [], c6bcontents.toList,
   get_offsets_and_lines c6bcontents.toList⟩

def c6bres : Resource := ⟨⟨0, 9⟩, [.ResourceComment ⟨0, 5⟩ "c"]⟩

def c6ccontents : String := "m = x\ry\n"

def c6cctx : Ctx :=
  ⟨"f.ftl", "root", [], c6ccontents.toList,
   get_offsets_and_lines c6ccontents.toList⟩

def c6cres : Resource :=
  ⟨⟨0, 8⟩,
   [.Message ⟨0, 7⟩ ⟨⟨0, 1⟩, "m"⟩
      (some (.mk ⟨4, 7⟩ (.cons (.TextElement ⟨4, 7⟩ "x\ry") .nil))) []]⟩

/-- Claim C6, amended: a carriage return is detected — as the fatal
`AssertionError` of the newline counters — exactly when it terminates the run
of newlines scanned from a comment's span boundary, and those counters only
run while visiting resource or group comments; a file whose CR lies anywhere
else is linted to completion.  Concretely: a resource comment followed by a
CR aborts the run, while a CR inside a message value does not. -/
theorem c6_crlf_detection :
    (∀ (span : Span) (contents : List Char),
      get_newlines_count_after span contents = none ↔
        ∃ k, (∀ j, j < k → (contents.drop span.stop).get? j = some '\n') ∧
          (contents.drop span.stop).get? k = some '\r') ∧
    lintResource c6bctx c6bres = none ∧
    lintResource c6cctx c6cres = some [] := by
  refine ⟨?_, by decide, by decide⟩
  intro span contents
  unfold get_newlines_count_after
  exact count_newlines_run_none_iff _

/-- C6 witness: the detection clause applied to a concrete comment span whose
scan window starts with a newline and then hits a CR. -/
def c6wcontents : List Char := "## g\n\rx\n".toList

theorem c6_witness : get_newlines_count_after ⟨0, 4⟩ c6wcontents = none :=
  (c6_crlf_detection.1 ⟨0, 4⟩ c6wcontents).mpr
    ⟨1,
     fun j hj => by
       cases j with
       | zero => decide
       | succ n => omega,
     by decide⟩

/-- Build the context of a one-line file `k = <value>` for the text-element
claims (empty configuration; the newline terminates line 1). -/
def teCtx (contents : String) : Ctx :=
  ⟨"f.ftl", "root", [], contents.toList, get_offsets_and_lines contents.toList⟩

/-- C7 counterexample value: the only apostrophe sits inside a markup tag. -/
def c7value : String := "<img alt=\"don\x27t\">ok"

def c7ctx : Ctx := teCtx ("k = " ++ c7value ++ "\n")

/-- Claim C7 counterexample: the claim says the apostrophe check inspects
only the non-markup text runs, never the markup tags; but for a value whose
only apostrophe sits inside a tag attribute the linter still reports TE01 —
the TE01 test runs on the element's full raw value. -/
theorem c7_counterexample :
    (visit_TextElement c7ctx initSt ⟨4, 24⟩ c7value).map
      (fun s => s.results.map Diag.rule) = some [TE01] := by
  decide

/-- C7 fixture values for the amended claim. -/
def c7quoted : String := "Click \x27don\x27t\x27 now"
def c7plain : String := "don\x27t"
def c7runs : String := "a\x27b<i>c</i>d"

def c7qctx : Ctx := teCtx ("k = " ++ c7quoted ++ "\n")
def c7pctx : Ctx := teCtx ("k = " ++ c7plain ++ "\n")
def c7rctx : Ctx := teCtx ("k = " ++ c7runs ++ "\n")

/-- Claim C7, amended: TE01 is evaluated against the element's entire raw
value, markup included — paired single-quote spans of the raw value are
collapsed, then a word character immediately followed by a straight
apostrophe is a violation, reported once per extracted non-markup text run.
So a word-adjacent apostrophe reports TE01 (once per run: a value with three
text runs reports it three times, and one inside a markup tag still reports
it), while an apostrophe inside a paired single-quote span reports no TE01
(that value reports TE03 for the quoted span instead). -/
theorem c7_apostrophe_check :
    (visit_TextElement c7pctx initSt ⟨4, 9⟩ c7plain).map
      (fun s => s.results.map Diag.rule) = some [TE01] ∧
    (visit_TextElement c7qctx initSt ⟨4, 21⟩ c7quoted).map
      (fun s => s.results.map Diag.rule) = some [TE03] ∧
    (visit_TextElement c7rctx initSt ⟨4, 17⟩ c7runs).map
      (fun s => s.results.map Diag.rule) = some [TE01, TE01, TE01] := by
  refine ⟨by decide, by decide, by decide⟩

/-- C8 counterexample value: two disjoint occurrences of three periods in a
single text run. -/
def c8value : String := "one...two...three"

def c8ctx : Ctx := teCtx ("k = " ++ c8value ++ "\n")

/-- Claim C8 counterexample: a text run with two disjoint `...` occurrences
is claimed to yield two TE05 diagnostics, but `re.search` fires at most once
per run: exactly one TE05 is reported. -/
theorem c8_counterexample :
    (visit_TextElement c8ctx initSt ⟨4, 21⟩ c8value).map
      (fun s => s.results.countP (fun d => d.rule == TE05)) = some 1 := by
  decide

/-- C8 fixture values for the amended claim. -/
def c8load : String := "Loading..."
def c8uni : String := "Loading…"
def c8tworuns : String := "a...<b>c...</b>"

def c8lctx : Ctx := teCtx ("k = " ++ c8load ++ "\n")
def c8uctx : Ctx := teCtx ("k = " ++ c8uni ++ "\n")
def c8rctx : Ctx := teCtx ("k = " ++ c8tworuns ++ "\n")

/-- Claim C8, amended: each text-quality rule fires at most once per
extracted text run, not once per occurrence.  `"Loading..."` yields exactly
one TE05 and the Unicode-ellipsis value yields none, as claimed; but a run
with two disjoint `...` occurrences still yields a single TE05, while two
separate text runs with one occurrence each yield two. -/
theorem c8_ellipsis_check :
    (visit_TextElement c8lctx initSt ⟨4, 14⟩ c8load).map
      (fun s => s.results.map Diag.rule) = some [TE05] ∧
    (visit_TextElement c8uctx initSt ⟨4, 12⟩ c8uni).map
      (fun s => s.results.map Diag.rule) = some [] ∧
    (visit_TextElement c8rctx initSt ⟨4, 19⟩ c8tworuns).map
      (fun s => s.results.map Diag.rule) = some [TE05, TE05] := by
  refine ⟨by decide, by decide, by decide⟩

/-- Claim C9: each resource-comment visit and each group-comment visit adds at
most one diagnostic, drawn from its own rule family — the first failing check
returns early and suppresses the rest. -/
theorem c9_comment_checks :
    (∀ (ctx : Ctx) (st st' : St) (span : Span),
      visit_ResourceComment ctx st span = some st' →
      ∃ new, st'.results = st.results ++ new ∧ new.length ≤ 1 ∧
        ∀ d ∈ new, d.rule = RC01 ∨ d.rule = RC02 ∨ d.rule = RC03) ∧
    (∀ (ctx : Ctx) (st st' : St) (span : Span) (content : String),
      visit_GroupComment ctx st span content = some st' →
      ∃ new, st'.results = st.results ++ new ∧ new.length ≤ 1 ∧
        ∀ d ∈ new, d.rule = GC01 ∨ d.rule = GC02 ∨ d.rule = GC03 ∨ d.rule = GC04) := by
  constructor
  · intro ctx st st' span h
    obtain ⟨_, new, hres, hlen, hrules⟩ := visit_ResourceComment_shape h
    exact ⟨new, hres, hlen, hrules⟩
  · intro ctx st st' span content h
    obtain ⟨_, new, hres, hlen, hrules⟩ := visit_GroupComment_shape h
    exact ⟨new, hres, hlen, hrules⟩

/-- C9 witness: a resource comment whose file continues without a blank line
reports exactly RC02. -/
def c9wctx : Ctx :=
  ⟨"w.ftl", "root", [], "x\n".toList, get_offsets_and_lines ("x\n".toList)⟩

def c9wst : St := ⟨[⟨"w.ftl", 1, 1, RC02, rc02msg⟩], [], true, true⟩

theorem c9_witness : c9wst.results.length ≤ initSt.results.length + 1 := by
  obtain ⟨new, hres, hlen, _⟩ :=
    c9_comment_checks.1 c9wctx initSt c9wst ⟨0, 0⟩ (by decide)
  rw [hres, List.length_append]
  omega

/-- Claim C10: when an identifier names `n ≥ 2` Message entries of a file,
exactly `n - 1` MI01 diagnostics for that identifier are reported (each one
appended while visiting an occurrence after the first), and the
seen-identifier list never records an identifier twice. -/
theorem c10_duplicate_count (ctx : Ctx) (r : Resource) (x : String)
    (ds : List Diag) (h : lintResource ctx r = some ds)
    (hn : 2 ≤ msgCount x r.body) :
    miCount x ds = msgCount x r.body - 1 ∧
    (∀ st', visitEntries ctx initSt r.body = some st' → st'.ids.Nodup) := by
  unfold lintResource at h
  cases hv : visitEntries ctx initSt r.body with
  | none => rw [hv] at h; exact absurd h (by simp)
  | some st' =>
    rw [hv] at h
    simp only [Option.map_some', Option.some.injEq] at h
    subst h
    obtain ⟨hc, _, hnd⟩ := visitEntries_mi x r.body hv
    constructor
    · rw [hc]
      rw [if_neg (by simp [initSt])]
      have h1 : miCount x initSt.results = 0 := rfl
      rw [h1]
      omega
    · intro st'' hv2
      injection hv2 with hv2
      subst hv2
      exact hnd (by simp [initSt])

/-- C10 witness file: three messages named `foo`, two MI01 diagnostics. -/
def c10name : String := "foo"

def c10contents : String := "foo = a\nfoo = b\nfoo = c\n"

def c10ctx : Ctx :=
  ⟨"f.ftl", "root", [], c10contents.toList,
   get_offsets_and_lines c10contents.toList⟩

def c10res : Resource :=
  ⟨⟨0, 24⟩,
   [.Message ⟨0, 7⟩ ⟨⟨0, 3⟩, "foo"⟩
      (some (.mk ⟨6, 7⟩ (.cons (.TextElement ⟨6, 7⟩ "a") .nil))) [],
    .Message ⟨8, 15⟩ ⟨⟨8, 11⟩, "foo"⟩
      (some (.mk ⟨14, 15⟩ (.cons (.TextElement ⟨14, 15⟩ "b") .nil))) [],
    .Message ⟨16, 23⟩ ⟨⟨16, 19⟩, "foo"⟩
      (some (.mk ⟨22, 23⟩ (.cons (.TextElement ⟨22, 23⟩ "c") .nil))) []]⟩

def c10ds : List Diag :=
  [⟨"f.ftl", 2, 1, MI01, mi01msg c10name⟩, ⟨"f.ftl", 3, 1, MI01, mi01msg c10name⟩]

theorem c10_witness :
    miCount c10name c10ds = msgCount c10name c10res.body - 1 :=
  (c10_duplicate_count c10ctx c10res c10name c10ds (by decide) (by decide)).1
